import Mathlib

/-!
Shallow embedding of the response-normalization slice of the `agno` framework
(Groq provider adapter, PDF URL reader, MongoDB workflow storage), together
with theorems settling the specification's claims about it.

Sources embedded:
- `libs/agno/agno/models/groq/groq.py` (Groq adapter: request building,
  non-streaming and streaming response paths, metrics accumulation)
- `libs/agno/agno/document/reader/pdf_reader.py` (PDFUrlReader.read)
- `libs/agno/agno/storage/workflow/mongodb.py` (MongoDbWorkflowStorage.upsert)

The shared base class `agno/models/base.py` (base `Metrics`, the tool-call
dispatcher `handle_tool_calls` / `handle_post_tool_call_messages`,
`_build_tool_calls`) is not part of the corpus; those parts are modelled from
the spec and are marked `Modelled from the spec:` in their doc comments.

Numeric conventions: token counters are `Nat`; wall-clock readings and
vendor-reported times (Python floats) are modelled as `Rat`; a Python value
that may be `None` is an `Option`.
-/

deriving instance DecidableEq for Except

namespace Agno

/-- Tool-call descriptor as it appears on messages: id, function name and
JSON-encoded arguments (spec section 4.4). -/
structure ToolCall where
  id : String
  name : String
  arguments : String
deriving Repr, DecidableEq

/-- Streaming tool-call fragment (`ChoiceDeltaToolCall` of the vendor SDK):
each field may be absent on a given chunk. -/
structure DeltaToolCall where
  id : Option String := none
  name : Option String := none
  arguments : Option String := none
deriving Repr, DecidableEq

/-- Per-message metrics mapping (`Message.metrics`, a string-keyed dict in the
source); modelled as one optional slot per key the Groq adapter ever writes. -/
structure MsgMetrics where
  time : Option Rat := none
  time_to_first_token : Option Rat := none
  input_tokens : Option Nat := none
  output_tokens : Option Nat := none
  prompt_tokens : Option Nat := none
  completion_tokens : Option Nat := none
  total_tokens : Option Nat := none
  completion_time : Option Rat := none
  prompt_time : Option Rat := none
  queue_time : Option Rat := none
  total_time : Option Rat := none
deriving Repr, DecidableEq

/-- Modelled from the spec: provider-agnostic conversation turn
(`agno/models/message.py` is not in the corpus). Spec section 3: role,
optional text content, tool calls, metrics mapping. -/
structure Message where
  role : String
  content : Option String := none
  tool_calls : Option (List ToolCall) := none
  metrics : MsgMetrics := {}
deriving Repr, DecidableEq

/-- Modelled from the spec: provider-agnostic result of one model invocation
(`agno/models/response.py` is not in the corpus). Spec section 3: optional
content, optional tool-call list. -/
structure ModelResponse where
  content : Option String := none
  tool_calls : Option (List ToolCall) := none
deriving Repr, DecidableEq

/-- Vendor usage block (`CompletionUsage`). The adapter checks every field
against `None` before folding it in, so every field is optional here. -/
structure CompletionUsage where
  prompt_tokens : Option Nat := none
  completion_tokens : Option Nat := none
  total_tokens : Option Nat := none
  completion_time : Option Rat := none
  prompt_time : Option Rat := none
  queue_time : Option Rat := none
  total_time : Option Rat := none
deriving Repr, DecidableEq

/-- The message carried by the first choice of a vendor completion
(`ChatCompletionMessage`). -/
structure CompletionMessage where
  role : Option String := none
  content : Option String := none
  tool_calls : Option (List ToolCall) := none
deriving Repr, DecidableEq

/-- One non-streaming vendor completion, as consumed by `Groq.response`:
the source reads `response.choices[0].message` and `response.usage`.
`elapsed` is the response-timer reading for the call
(`metrics.response_timer.elapsed`), an input of the environment. -/
structure ChatCompletion where
  message : CompletionMessage
  usage : Option CompletionUsage := none
  elapsed : Rat := 0
deriving Repr, DecidableEq

/-- Per-call metrics (`Metrics` in groq.py extending the base class). The base
class is not in the corpus; per spec section 3 all counters are optional and
start absent. `completion_tokens` starts at `some 0`: the source executes
`metrics.completion_tokens += 1` on a fresh instance, which forces a non-None
integer initial value. -/
structure Metrics where
  input_tokens : Option Nat := none
  output_tokens : Option Nat := none
  prompt_tokens : Option Nat := none
  completion_tokens : Option Nat := some 0
  total_tokens : Option Nat := none
  time_to_first_token : Option Rat := none
  completion_time : Option Rat := none
  prompt_time : Option Rat := none
  queue_time : Option Rat := none
  total_time : Option Rat := none
deriving Repr, DecidableEq

/-- Modelled from the spec: the lifetime metrics mapping `self.metrics`
(a string-keyed dict living on the base `Model`, not in the corpus; spec
section 4.3: "mapping held by the adapter instance, values summed across every
call"). One slot per key the Groq adapter writes; `response_times` and
`time_to_first_token` hold lists (the source appends to them), the counters
hold an optional accumulated value — `none` models the key being absent. -/
structure LifetimeMetrics where
  response_times : List Rat := []
  time_to_first_token : List Rat := []
  input_tokens : Option Nat := none
  output_tokens : Option Nat := none
  prompt_tokens : Option Nat := none
  completion_tokens : Option Nat := none
  total_tokens : Option Nat := none
  completion_time : Option Rat := none
  prompt_time : Option Rat := none
  queue_time : Option Rat := none
  total_time : Option Rat := none
deriving Repr, DecidableEq

/-- `dict.get(key, 0) + v` on an optional `Nat` slot of the lifetime mapping. -/
def addNat (slot : Option Nat) (v : Nat) : Option Nat :=
  some (slot.getD 0 + v)

/-- `dict.get(key, 0) + v` on an optional `Rat` slot of the lifetime mapping. -/
def addRat (slot : Option Rat) (v : Rat) : Option Rat :=
  some (slot.getD 0 + v)

/-- Value in the request-kwargs dict (the Python dict is heterogeneous). -/
inductive ReqValue where
  | rat (q : Rat)
  | int (i : Int)
  | nat (n : Nat)
  | bool (b : Bool)
  | str (s : String)
  | strList (l : List String)
  | pairs (l : List (String × String))
  | bias (l : List (String × Int))
  | toolDefs (l : List String)
deriving Repr, DecidableEq

/-- Association-list update with Python `dict.update` semantics: an existing
key is overwritten in place, a new key is appended. -/
def dictSet (d : List (String × ReqValue)) (k : String) (v : ReqValue) :
    List (String × ReqValue) :=
  if d.any (fun p => p.1 == k) then
    d.map (fun p => if p.1 == k then (k, v) else p)
  else
    d ++ [(k, v)]

/-- Python `dict.update(other)` over association lists. -/
def dictUpdate (d other : List (String × ReqValue)) : List (String × ReqValue) :=
  other.foldl (fun acc p => dictSet acc p.1 p.2) d

/-- Key membership in the request-kwargs dict. -/
def hasKey (d : List (String × ReqValue)) (k : String) : Bool :=
  d.any (fun p => p.1 == k)

/-- The Groq adapter instance: model id, request parameters and the lifetime
metrics mapping. Request-parameter fields mirror the dataclass fields of
`Groq` in groq.py; `tools` and `tool_choice` live on the base `Model`
(modelled from the spec's tool-schema description as opaque tool definitions
and an optional choice string). -/
structure Groq where
  id : String := "llama3-groq-70b-8192-tool-use-preview"
  name : String := "Groq"
  provider : String := "Groq"
  frequency_penalty : Option Rat := none
  logit_bias : Option (List (String × Int)) := none
  logprobs : Option Bool := none
  max_tokens : Option Nat := none
  presence_penalty : Option Rat := none
  response_format : Option (List (String × String)) := none
  seed : Option Int := none
  stop : Option (List String) := none
  temperature : Option Rat := none
  top_logprobs : Option Nat := none
  top_p : Option Rat := none
  user : Option String := none
  extra_headers : Option (List (String × String)) := none
  extra_query : Option (List (String × String)) := none
  request_params : Option (List (String × ReqValue)) := none
  tools : Option (List String) := none
  tool_choice : Option String := none
  metrics : LifetimeMetrics := {}
deriving Repr, DecidableEq

/-- Python truthiness of an optional rational (`if self.x:`): `None`, `0.0`
are falsy. -/
def truthyRat : Option Rat → Bool
  | none => false
  | some q => q != 0

/-- Python truthiness of an optional integer: `None` and `0` are falsy. -/
def truthyInt : Option Int → Bool
  | none => false
  | some i => i != 0

/-- Python truthiness of an optional natural: `None` and `0` are falsy. -/
def truthyNat : Option Nat → Bool
  | none => false
  | some n => n != 0

/-- Python truthiness of an optional bool: `None` and `False` are falsy. -/
def truthyBool : Option Bool → Bool
  | none => false
  | some b => b

/-- Python truthiness of an optional string: `None` and `""` are falsy. -/
def truthyStr : Option String → Bool
  | none => false
  | some s => s != ""

/-- Python truthiness of an optional list/dict: `None` and empty are falsy. -/
def truthyList {α : Type} : Option (List α) → Bool
  | none => false
  | some l => !l.isEmpty

/-- Embedding of the `Groq.request_kwargs` property: each parameter is added
to the request dict under a plain truthiness test (`if self.x:`), in source
order; `tools` additionally forces a `tool_choice` entry ("auto" when unset);
finally `self.request_params` is merged with dict-update semantics. -/
def requestKwargs (g : Groq) : List (String × ReqValue) :=
  let d : List (String × ReqValue) := []
  let d := if truthyRat g.frequency_penalty then
    d ++ [("frequency_penalty", ReqValue.rat (g.frequency_penalty.getD 0))] else d
  let d := if truthyList g.logit_bias then
    d ++ [("logit_bias", ReqValue.bias (g.logit_bias.getD []))] else d
  let d := if truthyBool g.logprobs then
    d ++ [("logprobs", ReqValue.bool (g.logprobs.getD false))] else d
  let d := if truthyNat g.max_tokens then
    d ++ [("max_tokens", ReqValue.nat (g.max_tokens.getD 0))] else d
  let d := if truthyRat g.presence_penalty then
    d ++ [("presence_penalty", ReqValue.rat (g.presence_penalty.getD 0))] else d
  let d := if truthyList g.response_format then
    d ++ [("response_format", ReqValue.pairs (g.response_format.getD []))] else d
  let d := if truthyInt g.seed then
    d ++ [("seed", ReqValue.int (g.seed.getD 0))] else d
  let d := if truthyList g.stop then
    d ++ [("stop", ReqValue.strList (g.stop.getD []))] else d
  let d := if truthyRat g.temperature then
    d ++ [("temperature", ReqValue.rat (g.temperature.getD 0))] else d
  let d := if truthyNat g.top_logprobs then
    d ++ [("top_logprobs", ReqValue.nat (g.top_logprobs.getD 0))] else d
  let d := if truthyRat g.top_p then
    d ++ [("top_p", ReqValue.rat (g.top_p.getD 0))] else d
  let d := if truthyStr g.user then
    d ++ [("user", ReqValue.str (g.user.getD ""))] else d
  let d := if truthyList g.extra_headers then
    d ++ [("extra_headers", ReqValue.pairs (g.extra_headers.getD []))] else d
  let d := if truthyList g.extra_query then
    d ++ [("extra_query", ReqValue.pairs (g.extra_query.getD []))] else d
  let d := if truthyList g.tools then
    (d ++ [("tools", ReqValue.toolDefs (g.tools.getD []))])
      ++ [("tool_choice", ReqValue.str (g.tool_choice.getD "auto"))] else d
  let d := match g.request_params with
    | some rp => dictUpdate d rp
    | none => d
  d

/-- Modelled from the spec: the typed provider error of spec section 7,
"surfaced to the caller as a typed error carrying vendor name, model id, and
status code". The vendor SDK that raises it is external to the corpus. -/
structure ProviderError where
  vendor : String
  model_id : String
  status_code : Nat
deriving Repr, DecidableEq

/-- Embedding of `Groq.update_usage_metrics`: stamps the response time on the
assistant message and the lifetime `response_times` list, then folds each
usage field that the vendor reported (non-None check in the source) into the
per-call metrics, the message metrics and the lifetime mapping. Returns the
updated (message, per-call metrics, lifetime mapping). -/
def updateUsageMetrics (am : Message) (m : Metrics) (life : LifetimeMetrics)
    (elapsed : Rat) (response_usage : Option CompletionUsage) :
    Message × Metrics × LifetimeMetrics :=
  let am := { am with metrics := { am.metrics with time := some elapsed } }
  let life := { life with response_times := life.response_times ++ [elapsed] }
  match response_usage with
  | none => (am, m, life)
  | some u =>
    let (am, m, life) := match u.prompt_tokens with
      | none => (am, m, life)
      | some p =>
        ({ am with metrics :=
            { am.metrics with input_tokens := some p, prompt_tokens := some p } },
         { m with input_tokens := some p, prompt_tokens := some p },
         { life with input_tokens := addNat life.input_tokens p,
                     prompt_tokens := addNat life.prompt_tokens p })
    let (am, m, life) := match u.completion_tokens with
      | none => (am, m, life)
      | some c =>
        ({ am with metrics :=
            { am.metrics with output_tokens := some c, completion_tokens := some c } },
         { m with output_tokens := some c, completion_tokens := some c },
         { life with output_tokens := addNat life.output_tokens c,
                     completion_tokens := addNat life.completion_tokens c })
    let (am, m, life) := match u.total_tokens with
      | none => (am, m, life)
      | some t =>
        ({ am with metrics := { am.metrics with total_tokens := some t } },
         { m with total_tokens := some t },
         { life with total_tokens := addNat life.total_tokens t })
    let (am, m, life) := match u.completion_time with
      | none => (am, m, life)
      | some ct =>
        ({ am with metrics := { am.metrics with completion_time := some ct } },
         { m with completion_time := some ct },
         { life with completion_time := addRat life.completion_time ct })
    let (am, m, life) := match u.prompt_time with
      | none => (am, m, life)
      | some pt =>
        ({ am with metrics := { am.metrics with prompt_time := some pt } },
         { m with prompt_time := some pt },
         { life with prompt_time := addRat life.prompt_time pt })
    let (am, m, life) := match u.queue_time with
      | none => (am, m, life)
      | some qt =>
        ({ am with metrics := { am.metrics with queue_time := some qt } },
         { m with queue_time := some qt },
         { life with queue_time := addRat life.queue_time qt })
    match u.total_time with
    | none => (am, m, life)
    | some tt =>
      ({ am with metrics := { am.metrics with total_time := some tt } },
       { m with total_time := some tt },
       { life with total_time := addRat life.total_time tt })

/-- Embedding of `Groq.create_assistant_message`: role defaults to
"assistant", content copied from the vendor message, tool calls attached only
when present and non-empty, then usage metrics folded in. -/
def createAssistantMessage (rm : CompletionMessage) (m : Metrics)
    (life : LifetimeMetrics) (elapsed : Rat) (usage : Option CompletionUsage) :
    Message × Metrics × LifetimeMetrics :=
  let am : Message := { role := rm.role.getD "assistant", content := rm.content }
  let am := match rm.tool_calls with
    | some ts => if ts.length > 0 then { am with tool_calls := some ts } else am
    | none => am
  updateUsageMetrics am m life elapsed usage

/-- Modelled from the spec: one dispatcher step for a single tool call
(spec section 4.4) — the shared base dispatcher resolves the named function,
invokes it and wraps the result as a tool-role Message tagged with the call
id. The local function table is the parameter `runTool`. -/
def toolResultMessage (runTool : ToolCall → String) (tc : ToolCall) : Message :=
  { role := "tool", content := some (runTool tc) }

/-- Embedding of `Groq.response` driven by a script of vendor outcomes: entry
`k` of the script is what the k-th `invoke` returns (a completion, or a
provider error raised by the vendor call). Per source order, the assistant
message is appended to the conversation first; when it carries tool calls the
spec-modelled dispatcher appends one tool message per call and the adapter
recurses on the rest of the script (`handle_post_tool_call_messages`);
otherwise the model response built from the assistant message is returned.
Result `none` means the script was exhausted before a terminal response. -/
def response (g : Groq) (runTool : ToolCall → String) :
    List (Except ProviderError ChatCompletion) → List Message →
    Option (Except ProviderError ModelResponse × List Message × Groq)
  | [], _ => none
  | Except.error e :: _, messages => some (Except.error e, messages, g)
  | Except.ok comp :: rest, messages =>
    let (am, _m, life) :=
      createAssistantMessage comp.message {} g.metrics comp.elapsed comp.usage
    let g := { g with metrics := life }
    let messages := messages ++ [am]
    match am.tool_calls with
    | some tcs =>
      if tcs.length > 0 then
        let messages := messages ++ tcs.map (toolResultMessage runTool)
        response g runTool rest messages
      else
        some (Except.ok { content := am.content, tool_calls := am.tool_calls },
              messages, g)
    | none =>
      some (Except.ok { content := am.content, tool_calls := am.tool_calls },
            messages, g)

/-- Delta of one streamed choice (`ChoiceDelta`): optional content fragment
and optional tool-call fragments. -/
structure ChoiceDelta where
  content : Option String := none
  tool_calls : Option (List DeltaToolCall) := none
deriving Repr, DecidableEq

/-- One streamed vendor chunk (`ChatCompletionChunk`): a possibly empty choice
list and an optional trailing usage block. `elapsed` is the response-timer
reading when the chunk arrives (`metrics.response_timer.elapsed`), an input of
the environment. -/
structure Chunk where
  choices : List ChoiceDelta := []
  usage : Option CompletionUsage := none
  elapsed : Rat := 0
deriving Repr, DecidableEq

/-- Embedding of `Groq.add_response_usage_to_metrics`: an unconditional copy
of every usage field into the per-call metrics (no non-None checks here). -/
def addResponseUsageToMetrics (m : Metrics) (u : CompletionUsage) : Metrics :=
  { m with
    input_tokens := u.prompt_tokens
    prompt_tokens := u.prompt_tokens
    output_tokens := u.completion_tokens
    completion_tokens := u.completion_tokens
    total_tokens := u.total_tokens
    completion_time := u.completion_time
    prompt_time := u.prompt_time
    queue_time := u.queue_time
    total_time := u.total_time }

/-- Embedding of `Groq.update_stream_metrics`: stamps the response time, then
copies every per-call metric that is non-None onto the assistant message and
adds it into the lifetime mapping (`time_to_first_token` is appended to a
lifetime list instead). -/
def updateStreamMetrics (am : Message) (m : Metrics) (life : LifetimeMetrics)
    (elapsed : Rat) : Message × LifetimeMetrics :=
  let am := { am with metrics := { am.metrics with time := some elapsed } }
  let life := { life with response_times := life.response_times ++ [elapsed] }
  let (am, life) := match m.time_to_first_token with
    | none => (am, life)
    | some t =>
      ({ am with metrics := { am.metrics with time_to_first_token := some t } },
       { life with time_to_first_token := life.time_to_first_token ++ [t] })
  let (am, life) := match m.input_tokens with
    | none => (am, life)
    | some v =>
      ({ am with metrics := { am.metrics with input_tokens := some v } },
       { life with input_tokens := addNat life.input_tokens v })
  let (am, life) := match m.output_tokens with
    | none => (am, life)
    | some v =>
      ({ am with metrics := { am.metrics with output_tokens := some v } },
       { life with output_tokens := addNat life.output_tokens v })
  let (am, life) := match m.prompt_tokens with
    | none => (am, life)
    | some v =>
      ({ am with metrics := { am.metrics with prompt_tokens := some v } },
       { life with prompt_tokens := addNat life.prompt_tokens v })
  let (am, life) := match m.completion_tokens with
    | none => (am, life)
    | some v =>
      ({ am with metrics := { am.metrics with completion_tokens := some v } },
       { life with completion_tokens := addNat life.completion_tokens v })
  let (am, life) := match m.total_tokens with
    | none => (am, life)
    | some v =>
      ({ am with metrics := { am.metrics with total_tokens := some v } },
       { life with total_tokens := addNat life.total_tokens v })
  let (am, life) := match m.completion_time with
    | none => (am, life)
    | some v =>
      ({ am with metrics := { am.metrics with completion_time := some v } },
       { life with completion_time := addRat life.completion_time v })
  let (am, life) := match m.prompt_time with
    | none => (am, life)
    | some v =>
      ({ am with metrics := { am.metrics with prompt_time := some v } },
       { life with prompt_time := addRat life.prompt_time v })
  let (am, life) := match m.queue_time with
    | none => (am, life)
    | some v =>
      ({ am with metrics := { am.metrics with queue_time := some v } },
       { life with queue_time := addRat life.queue_time v })
  match m.total_time with
  | none => (am, life)
  | some v =>
    ({ am with metrics := { am.metrics with total_time := some v } },
     { life with total_time := addRat life.total_time v })

/-- Modelled from the spec: `Model._build_tool_calls` (base class, not in the
corpus) merges streamed tool-call fragments into full descriptors — a fragment
carrying an id starts a new descriptor, later fragments append their argument
text to the last descriptor (spec section 4.4: descriptors are id, function
name, JSON-encoded arguments accumulated from the stream). -/
def buildToolCalls (frags : List DeltaToolCall) : List ToolCall :=
  frags.foldl
    (fun acc f =>
      match f.id with
      | some i => acc ++ [{ id := i, name := f.name.getD "",
                            arguments := f.arguments.getD "" }]
      | none =>
        match acc.getLast? with
        | some last =>
          acc.dropLast ++ [{ last with
            arguments := last.arguments ++ f.arguments.getD "" }]
        | none => acc)
    []

/-- Streaming accumulator (`StreamData`). -/
structure StreamData where
  response_content : String := ""
  response_tool_calls : Option (List DeltaToolCall) := none
deriving Repr, DecidableEq

/-- State threaded through the chunk loop of `Groq.response_stream`: the
accumulator, the per-call metrics and the model responses yielded so far. -/
structure StreamLoopState where
  stream_data : StreamData := {}
  metrics : Metrics := {}
  yielded : List ModelResponse := []
deriving Repr, DecidableEq

/-- One iteration of the chunk loop in `Groq.response_stream`: a chunk with at
least one choice bumps the completion-token chunk counter (setting
time-to-first-token when the counter reaches 1), appends the first choice's
content to the accumulator while yielding it as an incremental response, and
collects tool-call fragments; any chunk carrying a usage block has it copied
into the per-call metrics. -/
def processChunk (st : StreamLoopState) (c : Chunk) : StreamLoopState :=
  let st :=
    match c.choices with
    | [] => st
    | delta :: _ =>
      let m := { st.metrics with
        completion_tokens := st.metrics.completion_tokens.map (· + 1) }
      let m := if m.completion_tokens == some 1 then
          { m with time_to_first_token := some c.elapsed }
        else m
      let st := { st with metrics := m }
      let st := match delta.content with
        | some s =>
          { st with
            stream_data := { st.stream_data with
              response_content := st.stream_data.response_content ++ s }
            yielded := st.yielded ++ [{ content := some s }] }
        | none => st
      match delta.tool_calls with
      | some ts =>
        { st with stream_data := { st.stream_data with
            response_tool_calls :=
              some ((st.stream_data.response_tool_calls.getD []) ++ ts) } }
      | none => st
  match c.usage with
  | some u => { st with metrics := addResponseUsageToMetrics st.metrics u }
  | none => st

/-- One streamed vendor call: the chunk sequence the vendor emits and the
response-timer reading when the stream ends. -/
structure StreamCall where
  chunks : List Chunk := []
  finalElapsed : Rat := 0
deriving Repr, DecidableEq

/-- Assembly of the assistant message from the stream accumulator (lines of
`response_stream` following the chunk loop): content attached when the
accumulated text is nonempty, tool calls attached when the merged tool-call
list is nonempty. -/
def assembleAssistant (sd : StreamData) : Message :=
  let am : Message := { role := "assistant" }
  let am := if sd.response_content != "" then
      { am with content := some sd.response_content }
    else am
  match sd.response_tool_calls with
  | some ts =>
    let tcs := buildToolCalls ts
    if tcs.length > 0 then { am with tool_calls := some tcs } else am
  | none => am

/-- Embedding of the body of `Groq.response_stream` up to (not including)
tool-call handling: run the chunk loop, assemble the assistant message from
the accumulated content and tool calls, fold stream metrics, and append the
assistant message to the conversation. Returns the yielded responses, the
assistant message, the updated conversation and the updated adapter. -/
def streamSegment (g : Groq) (messages : List Message) (call : StreamCall) :
    List ModelResponse × Message × List Message × Groq :=
  let st := call.chunks.foldl processChunk {}
  let (am, life) :=
    updateStreamMetrics (assembleAssistant st.stream_data) st.metrics
      g.metrics call.finalElapsed
  (st.yielded, am, messages ++ [am], { g with metrics := life })

/-- Embedding of `Groq.response_stream` driven by a script of streamed vendor
calls (entry `k` is the chunk sequence of the k-th `invoke_stream`). When the
assembled assistant message carries tool calls, the spec-modelled dispatcher
appends one tool message per call and the stream of the follow-up call is
yielded after the current one (`handle_post_tool_call_messages_stream`);
otherwise the call ends. Result `none` means the script was exhausted while
tool calls were still pending. -/
def responseStream (g : Groq) (runTool : ToolCall → String) :
    List StreamCall → List Message →
    Option (List ModelResponse × List Message × Groq)
  | [], _ => none
  | call :: rest, messages =>
    let (yielded, am, messages, g) := streamSegment g messages call
    match am.tool_calls with
    | some tcs =>
      if tcs.length > 0 then
        let messages := messages ++ tcs.map (toolResultMessage runTool)
        match responseStream g runTool rest messages with
        | some (ys, msgs, g) => some (yielded ++ ys, msgs, g)
        | none => none
      else some (yielded, messages, g)
    | none => some (yielded, messages, g)

/-- Document produced by `_build_document` in pdf_reader.py: name, id of the
form "name_page", the page number and the extracted text. -/
structure Document where
  name : String
  id : String
  page : Nat
  content : String
deriving Repr, DecidableEq

/-- HTTP response as `PDFUrlReader.read` consumes it: the status code and the
pages the third-party PDF library extracts from the body
(`DocumentReader(BytesIO(response.content)).pages`, one text per page). -/
structure HttpResponse where
  status : Nat := 200
  pages : List String := []
deriving Repr, DecidableEq

/-- Failure modes of `PDFUrlReader.read`: empty url (`ValueError`), transport
failure after the retry loop (`httpx.RequestError`), or a non-success status
from `raise_for_status` (`httpx.HTTPStatusError`). -/
inductive ReadError where
  | noUrl
  | requestError (e : String)
  | httpStatusError (status : Nat)
deriving Repr, DecidableEq

/-- Embedding of the retry loop `for attempt in range(3)` of
`PDFUrlReader.read`, unrolled: a failed attempt other than the last sleeps
`2 ** attempt` seconds and retries; the third failure propagates. The result
carries the list of backoff waits performed (in seconds), in order. -/
def fetchWithRetry (tries : Nat → Except String HttpResponse) :
    Except String HttpResponse × List Nat :=
  match tries 0 with
  | Except.ok r => (Except.ok r, [])
  | Except.error _ =>
    match tries 1 with
    | Except.ok r => (Except.ok r, [2 ^ 0])
    | Except.error _ =>
      match tries 2 with
      | Except.ok r => (Except.ok r, [2 ^ 0, 2 ^ 1])
      | Except.error e => (Except.error e, [2 ^ 0, 2 ^ 1])

/-- Split of a character list at every occurrence of a separator (the
behavior of Python `str.split` with a one-character separator). -/
def splitChars (sep : Char) : List Char → List (List Char)
  | [] => [[]]
  | c :: rest =>
    match splitChars sep rest with
    | [] => [[]]
    | g :: gs => if c = sep then [] :: g :: gs else (c :: g) :: gs

/-- Document name derived from the url in `PDFUrlReader.read`:
`url.split("/")[-1].split(".")[0].replace("/", "_").replace(" ", "_")`.
Both `replace` calls substitute a single character, embedded as a character
map. -/
def docNameFromUrl (url : String) : String :=
  let last := (splitChars '/' url.data).getLastD []
  let first := (splitChars '.' last).headD []
  String.mk (((first.map fun ch => if ch = '/' then '_' else ch).map
    fun ch => if ch = ' ' then '_' else ch))

/-- Embedding of `PDFUrlReader.read`: reject an empty url, fetch with the
retry loop, raise for a non-2xx status, build one document per page
(numbered from 1), and chunk when the reader is configured to. The chunker
(`Reader.chunk_document`, base class not in the corpus) is the parameter
`chunkDoc`; spec section 1 calls the readers "document readers ... that
convert source files into chunked text documents". Alongside the result, the
list of backoff waits performed is returned. -/
def pdfUrlRead (chunk : Bool) (chunkDoc : Document → List Document)
    (url : String) (tries : Nat → Except String HttpResponse) :
    Except ReadError (List Document) × List Nat :=
  if url = "" then (Except.error ReadError.noUrl, [])
  else
    match fetchWithRetry tries with
    | (Except.error e, waits) => (Except.error (ReadError.requestError e), waits)
    | (Except.ok r, waits) =>
      if r.status ≥ 400 then
        (Except.error (ReadError.httpStatusError r.status), waits)
      else
        let doc_name := docNameFromUrl url
        let documents := (r.pages.enumFrom 1).map fun p =>
          { name := doc_name, id := s!"{doc_name}_{p.1}", page := p.1,
            content := p.2 : Document }
        if chunk then
          (Except.ok (documents.flatMap chunkDoc), waits)
        else
          (Except.ok documents, waits)

/-- Serialized workflow session as `MongoDbWorkflowStorage.upsert` consumes it
(`session.to_dict()`): the session id, the optional `_version` key, and the
rest of the payload kept opaque. -/
structure SessionDict where
  session_id : String
  version : Option Nat := none
  payload : String := ""
deriving Repr, DecidableEq

/-- Document stored in the MongoDB collection. -/
structure StoredDoc where
  session_id : String
  version : Option Nat := none
  payload : String := ""
  created_at : Option Nat := none
  updated_at : Option Nat := none
deriving Repr, DecidableEq

/-- MongoDB collection keyed by `session_id`. -/
abbrev Store := List StoredDoc

/-- `collection.find_one({"session_id": sid})`. -/
def findOne (store : Store) (sid : String) : Option StoredDoc :=
  List.find? (fun d => d.session_id == sid) store

/-- Embedding of `MongoDbWorkflowStorage.upsert`: the written `_version` is
computed from the serialized session alone (1 when the dict lacks the key,
that value plus one otherwise); `updated_at` is stamped with `now`;
`created_at` is set only when no document with that session id exists; the
`$set` upsert then overwrites the stored fields unconditionally. Returns the
updated store and the read-back of the stored document. -/
def upsert (store : Store) (sd : SessionDict) (now : Nat) :
    Store × Option StoredDoc :=
  let version : Nat := match sd.version with
    | none => 1
    | some v => v + 1
  let store : Store :=
    match findOne store sd.session_id with
    | some _ =>
      List.map (fun d => if d.session_id == sd.session_id then
          { d with version := some version, payload := sd.payload,
                   updated_at := some now }
        else d) store
    | none =>
      store ++ [{ session_id := sd.session_id, version := some version,
                  payload := sd.payload, created_at := some now,
                  updated_at := some now }]
  (store, findOne store sd.session_id)

/-- Iterated upsert of the same serialized session. -/
def upsertIter (store : Store) (sd : SessionDict) (now : Nat) :
    Nat → Store
  | 0 => store
  | n + 1 => upsertIter (upsert store sd now).1 sd now n

/-- Content fragments a chunk stream carries, in vendor emission order: the
`delta.content` of the first choice of each chunk that has choices and whose
delta carries content. These are exactly the fragments the chunk loop yields. -/
def contentFrags (chunks : List Chunk) : List String :=
  chunks.filterMap fun c =>
    match c.choices with
    | [] => none
    | d :: _ => d.content

/-- Concatenation of a fragment list, in order. -/
def concatAll : List String → String
  | [] => ""
  | s :: rest => s ++ concatAll rest

/-- Content contributed by one chunk to the stream accumulator. -/
def headContentStr (c : Chunk) : String :=
  match c.choices with
  | [] => ""
  | d :: _ => d.content.getD ""

/-- Incremental responses one chunk makes the chunk loop yield. -/
def headYield (c : Chunk) : List ModelResponse :=
  match c.choices with
  | [] => []
  | d :: _ =>
    match d.content with
    | some s => [{ content := some s }]
    | none => []

/-- Number of chunks with a nonempty choice list (what the chunk counter in
`response_stream` counts). -/
def choiceCount (chunks : List Chunk) : Nat :=
  (chunks.filter (fun c => !c.choices.isEmpty)).length

/-- First chunk with a nonempty choice list. -/
def firstChoiceChunk (chunks : List Chunk) : Option Chunk :=
  chunks.find? (fun c => !c.choices.isEmpty)

/-- Whether a chunk has a first choice whose delta carries content ("a chunk
that has content" in the spec's words). -/
def chunkHasContent (c : Chunk) : Bool :=
  match c.choices with
  | [] => false
  | d :: _ => d.content.isSome

/-- First chunk that has content. -/
def firstContentChunk (chunks : List Chunk) : Option Chunk :=
  chunks.find? chunkHasContent

/-- Sum of a `Nat`-valued usage field over the calls of a sequence that
actually report it. -/
def sumUsageNat (calls : List ChatCompletion) (f : CompletionUsage → Option Nat) :
    Nat :=
  (calls.filterMap (fun c => c.usage.bind f)).sum

/-- Sum of a `Rat`-valued usage field over the calls of a sequence that
actually report it. -/
def sumUsageRat (calls : List ChatCompletion) (f : CompletionUsage → Option Rat) :
    Rat :=
  (calls.filterMap (fun c => c.usage.bind f)).sum

/-- Lifetime-metrics effect of a sequence of completed non-streaming calls on
one adapter instance: each call folds its vendor completion into the adapter
exactly as `Groq.response` does (via `create_assistant_message` /
`update_usage_metrics`, with a fresh per-call `Metrics` per invocation). -/
def runCalls (g : Groq) : List ChatCompletion → Groq
  | [] => g
  | comp :: rest =>
    let (_, _, life) :=
      createAssistantMessage comp.message {} g.metrics comp.elapsed comp.usage
    runCalls { g with metrics := life } rest

/-- The three-chunk stream of the spec's streaming scenario: "Hello",
" world", then a usage-only chunk. -/
def helloStream : StreamCall :=
  { chunks := [ { choices := [{ content := some "Hello" }], elapsed := 1 },
                { choices := [{ content := some " world" }], elapsed := 2 },
                { usage := some { prompt_tokens := some 5,
                                  completion_tokens := some 2,
                                  total_tokens := some 7 }, elapsed := 3 } ],
    finalElapsed := 3 }

/-- A one-chunk stream whose vendor reports no usage block at all. -/
def c3Stream : StreamCall :=
  { chunks := [ { choices := [{ content := some "hi" }], elapsed := 1 } ],
    finalElapsed := 2 }

/-- A stream whose first chunk carries a choice without content (a role-only
delta) and whose second chunk carries the first content. -/
def c7Stream : StreamCall :=
  { chunks := [ { choices := [{ content := none }], elapsed := 1 },
                { choices := [{ content := some "x" }], elapsed := 2 } ],
    finalElapsed := 3 }

/-- A vendor usage block whose reported total is not the sum of its reported
prompt and completion tokens. -/
def c5Usage : CompletionUsage :=
  { prompt_tokens := some 5, completion_tokens := some 2,
    total_tokens := some 100 }

/-- A completion that requests one tool call. -/
def c4CompTool : ChatCompletion :=
  { message := { content := some "use tool",
                 tool_calls := some [{ id := "t1", name := "f",
                                       arguments := "{}" }] },
    elapsed := 1 }

/-- A completion with no tool calls. -/
def c4CompPlain : ChatCompletion :=
  { message := { content := some "done" }, elapsed := 2 }

/-- Attempt outcomes for the retry scenario: two transport failures, then a
success. -/
def c8Tries : Nat → Except String HttpResponse
  | 0 => Except.error "boom1"
  | 1 => Except.error "boom2"
  | _ => Except.ok { status := 200, pages := ["p1", "p2"] }

/-- Two-call usage sequence for the lifetime-summation witness. -/
def c6Calls : List ChatCompletion :=
  [ { message := { content := some "a" },
      usage := some { prompt_tokens := some 3, completion_tokens := some 4,
                      total_tokens := some 7, completion_time := some 2,
                      prompt_time := some 1, queue_time := some 5,
                      total_time := some 3 }, elapsed := 1 },
    { message := { content := some "b" },
      usage := some { prompt_tokens := some 10, completion_tokens := some 20,
                      total_tokens := some 30, completion_time := some 7,
                      prompt_time := some 8, queue_time := some 9,
                      total_time := some 11 }, elapsed := 2 } ]

/-- Normal form of `update_usage_metrics` on a present usage block: the
assistant-message and per-call metrics take the vendor's value whenever it is
reported (keeping the old value otherwise), and every reported value is added
into the lifetime mapping. -/
theorem updateUsageMetrics_eq (am : Message) (m : Metrics) (life : LifetimeMetrics)
    (e : Rat) (u : CompletionUsage) :
    updateUsageMetrics am m life e (some u) =
    ({ am with metrics := { am.metrics with
        time := some e
        input_tokens := u.prompt_tokens.or am.metrics.input_tokens
        prompt_tokens := u.prompt_tokens.or am.metrics.prompt_tokens
        output_tokens := u.completion_tokens.or am.metrics.output_tokens
        completion_tokens := u.completion_tokens.or am.metrics.completion_tokens
        total_tokens := u.total_tokens.or am.metrics.total_tokens
        completion_time := u.completion_time.or am.metrics.completion_time
        prompt_time := u.prompt_time.or am.metrics.prompt_time
        queue_time := u.queue_time.or am.metrics.queue_time
        total_time := u.total_time.or am.metrics.total_time } },
     { m with
        input_tokens := u.prompt_tokens.or m.input_tokens
        prompt_tokens := u.prompt_tokens.or m.prompt_tokens
        output_tokens := u.completion_tokens.or m.output_tokens
        completion_tokens := u.completion_tokens.or m.completion_tokens
        total_tokens := u.total_tokens.or m.total_tokens
        completion_time := u.completion_time.or m.completion_time
        prompt_time := u.prompt_time.or m.prompt_time
        queue_time := u.queue_time.or m.queue_time
        total_time := u.total_time.or m.total_time },
     { life with
        response_times := life.response_times ++ [e]
        input_tokens := match u.prompt_tokens with
          | some p => addNat life.input_tokens p
          | none => life.input_tokens
        prompt_tokens := match u.prompt_tokens with
          | some p => addNat life.prompt_tokens p
          | none => life.prompt_tokens
        output_tokens := match u.completion_tokens with
          | some c => addNat life.output_tokens c
          | none => life.output_tokens
        completion_tokens := match u.completion_tokens with
          | some c => addNat life.completion_tokens c
          | none => life.completion_tokens
        total_tokens := match u.total_tokens with
          | some t => addNat life.total_tokens t
          | none => life.total_tokens
        completion_time := match u.completion_time with
          | some v => addRat life.completion_time v
          | none => life.completion_time
        prompt_time := match u.prompt_time with
          | some v => addRat life.prompt_time v
          | none => life.prompt_time
        queue_time := match u.queue_time with
          | some v => addRat life.queue_time v
          | none => life.queue_time
        total_time := match u.total_time with
          | some v => addRat life.total_time v
          | none => life.total_time }) := by
  rcases u with ⟨pt, ct, tt, c1, p1, q1, t1⟩
  cases pt <;> cases ct <;> cases tt <;> cases c1 <;> cases p1 <;> cases q1 <;>
    cases t1 <;> rfl

/-- Normal form of `update_stream_metrics`: every non-None per-call metric is
copied onto the assistant message and added into the lifetime mapping
(time-to-first-token is appended to a lifetime list). -/
theorem updateStreamMetrics_eq (am : Message) (m : Metrics) (life : LifetimeMetrics)
    (e : Rat) :
    updateStreamMetrics am m life e =
    ({ am with metrics := { am.metrics with
        time := some e
        time_to_first_token := m.time_to_first_token.or am.metrics.time_to_first_token
        input_tokens := m.input_tokens.or am.metrics.input_tokens
        output_tokens := m.output_tokens.or am.metrics.output_tokens
        prompt_tokens := m.prompt_tokens.or am.metrics.prompt_tokens
        completion_tokens := m.completion_tokens.or am.metrics.completion_tokens
        total_tokens := m.total_tokens.or am.metrics.total_tokens
        completion_time := m.completion_time.or am.metrics.completion_time
        prompt_time := m.prompt_time.or am.metrics.prompt_time
        queue_time := m.queue_time.or am.metrics.queue_time
        total_time := m.total_time.or am.metrics.total_time } },
     { life with
        response_times := life.response_times ++ [e]
        time_to_first_token := match m.time_to_first_token with
          | some t => life.time_to_first_token ++ [t]
          | none => life.time_to_first_token
        input_tokens := match m.input_tokens with
          | some v => addNat life.input_tokens v
          | none => life.input_tokens
        output_tokens := match m.output_tokens with
          | some v => addNat life.output_tokens v
          | none => life.output_tokens
        prompt_tokens := match m.prompt_tokens with
          | some v => addNat life.prompt_tokens v
          | none => life.prompt_tokens
        completion_tokens := match m.completion_tokens with
          | some v => addNat life.completion_tokens v
          | none => life.completion_tokens
        total_tokens := match m.total_tokens with
          | some v => addNat life.total_tokens v
          | none => life.total_tokens
        completion_time := match m.completion_time with
          | some v => addRat life.completion_time v
          | none => life.completion_time
        prompt_time := match m.prompt_time with
          | some v => addRat life.prompt_time v
          | none => life.prompt_time
        queue_time := match m.queue_time with
          | some v => addRat life.queue_time v
          | none => life.queue_time
        total_time := match m.total_time with
          | some v => addRat life.total_time v
          | none => life.total_time }) := by
  rcases m with ⟨i, o, p, c, t, f, ct, pt, qt, tt⟩
  cases f <;> cases i <;> cases o <;> cases p <;> cases c <;> cases t <;>
    cases ct <;> cases pt <;> cases qt <;> cases tt <;> rfl

/-- One chunk appends exactly its first choice's content (empty when there is
no choice or no content) to the stream accumulator. -/
theorem processChunk_content (st : StreamLoopState) (c : Chunk) :
    (processChunk st c).stream_data.response_content =
      st.stream_data.response_content ++ headContentStr c := by
  rcases c with ⟨chs, us, el⟩
  cases chs with
  | nil => cases us <;> simp [processChunk, headContentStr]
  | cons d ds =>
    rcases d with ⟨dc, dt⟩
    cases dc <;> cases dt <;> cases us <;>
      simp [processChunk, headContentStr]

/-- One chunk makes the chunk loop yield exactly its first choice's content
fragment (nothing when there is no choice or no content). -/
theorem processChunk_yielded (st : StreamLoopState) (c : Chunk) :
    (processChunk st c).yielded = st.yielded ++ headYield c := by
  rcases c with ⟨chs, us, el⟩
  cases chs with
  | nil => cases us <;> simp [processChunk, headYield]
  | cons d ds =>
    rcases d with ⟨dc, dt⟩
    cases dc <;> cases dt <;> cases us <;>
      simp [processChunk, headYield]

/-- A chunk whose first choice carries no tool-call fragments (or that has no
choices) leaves the accumulated tool-call fragments unchanged. -/
theorem processChunk_tool_calls (st : StreamLoopState) (c : Chunk)
    (h : ∀ d ∈ c.choices.head?, d.tool_calls = none) :
    (processChunk st c).stream_data.response_tool_calls =
      st.stream_data.response_tool_calls := by
  rcases c with ⟨chs, us, el⟩
  cases chs with
  | nil => cases us <;> simp [processChunk]
  | cons d ds =>
    rcases d with ⟨dc, dt⟩
    have hd : dt = none := by
      simpa using h ⟨dc, dt⟩ (by simp)
    subst hd
    cases dc <;> cases us <;> simp [processChunk]

/-- With no usage block on the chunk, every per-call counter other than the
chunk counter is untouched; the chunk counter is bumped exactly when the
chunk has choices. -/
theorem processChunk_metrics_noUsage (st : StreamLoopState) (c : Chunk)
    (h : c.usage = none) :
    (processChunk st c).metrics.input_tokens = st.metrics.input_tokens ∧
    (processChunk st c).metrics.output_tokens = st.metrics.output_tokens ∧
    (processChunk st c).metrics.prompt_tokens = st.metrics.prompt_tokens ∧
    (processChunk st c).metrics.total_tokens = st.metrics.total_tokens ∧
    (processChunk st c).metrics.completion_time = st.metrics.completion_time ∧
    (processChunk st c).metrics.prompt_time = st.metrics.prompt_time ∧
    (processChunk st c).metrics.queue_time = st.metrics.queue_time ∧
    (processChunk st c).metrics.total_time = st.metrics.total_time ∧
    (processChunk st c).metrics.completion_tokens =
      (if c.choices.isEmpty then st.metrics.completion_tokens
       else st.metrics.completion_tokens.map (· + 1)) := by
  rcases c with ⟨chs, us, el⟩
  cases h
  cases chs with
  | nil => simp [processChunk]
  | cons d ds =>
    rcases d with ⟨dc, dt⟩
    cases dc <;> cases dt <;>
      simp [processChunk] <;>
      split <;> simp_all

/-- A chunk with no choices and no usage block is skipped entirely. -/
theorem processChunk_skip (st : StreamLoopState) (c : Chunk)
    (hc : c.choices = []) (hu : c.usage = none) :
    processChunk st c = st := by
  rcases c with ⟨chs, us, el⟩
  cases hc
  cases hu
  rfl

/-- Copying a usage block into the per-call metrics preserves
time-to-first-token. -/
theorem addResponseUsage_ttft (m : Metrics) (u : CompletionUsage) :
    (addResponseUsageToMetrics m u).time_to_first_token =
      m.time_to_first_token := rfl

/-- A chunk carrying a usage block ends with the per-call token counters set
to exactly the usage block's values, and time-to-first-token is not altered
by the usage fold (only possibly set by the chunk-counter rule). -/
theorem processChunk_usage_fold (st : StreamLoopState) (c : Chunk)
    (u : CompletionUsage) (h : c.usage = some u) :
    (processChunk st c).metrics.input_tokens = u.prompt_tokens ∧
    (processChunk st c).metrics.output_tokens = u.completion_tokens ∧
    (processChunk st c).metrics.prompt_tokens = u.prompt_tokens ∧
    (processChunk st c).metrics.completion_tokens = u.completion_tokens ∧
    (processChunk st c).metrics.total_tokens = u.total_tokens ∧
    (processChunk st c).metrics.completion_time = u.completion_time ∧
    (processChunk st c).metrics.prompt_time = u.prompt_time ∧
    (processChunk st c).metrics.queue_time = u.queue_time ∧
    (processChunk st c).metrics.total_time = u.total_time := by
  rcases c with ⟨chs, us, el⟩
  cases h
  cases chs with
  | nil => simp [processChunk, addResponseUsageToMetrics]
  | cons d ds =>
    rcases d with ⟨dc, dt⟩
    cases dc <;> cases dt <;>
      simp [processChunk, addResponseUsageToMetrics]

/-- Concatenated fragments of a chunk list split off the head chunk's
contribution. -/
theorem concatAll_contentFrags_cons (c : Chunk) (rest : List Chunk) :
    concatAll (contentFrags (c :: rest)) =
      headContentStr c ++ concatAll (contentFrags rest) := by
  rcases c with ⟨chs, us, el⟩
  cases chs with
  | nil => simp [contentFrags, headContentStr]
  | cons d ds =>
    rcases d with ⟨dc, dt⟩
    cases dc <;> simp [contentFrags, headContentStr, concatAll]

/-- Yield list of a chunk list splits off the head chunk's contribution. -/
theorem mapFrags_cons (c : Chunk) (rest : List Chunk) :
    (contentFrags (c :: rest)).map
        (fun s => ({ content := some s } : ModelResponse)) =
      headYield c ++ (contentFrags rest).map
        (fun s => ({ content := some s } : ModelResponse)) := by
  rcases c with ⟨chs, us, el⟩
  cases chs with
  | nil => simp [contentFrags, headYield]
  | cons d ds =>
    rcases d with ⟨dc, dt⟩
    cases dc <;> simp [contentFrags, headYield]

/-- The chunk loop accumulates exactly the concatenation of the stream's
content fragments and yields exactly those fragments, in order. -/
theorem foldl_processChunk_content (chunks : List Chunk) :
    ∀ st : StreamLoopState,
    ((chunks.foldl processChunk st).stream_data.response_content =
      st.stream_data.response_content ++ concatAll (contentFrags chunks)) ∧
    ((chunks.foldl processChunk st).yielded =
      st.yielded ++ (contentFrags chunks).map
        (fun s => ({ content := some s } : ModelResponse))) := by
  induction chunks with
  | nil => intro st; simp [contentFrags, concatAll]
  | cons c rest ih =>
    intro st
    refine ⟨?_, ?_⟩
    · rw [List.foldl_cons, (ih (processChunk st c)).1, processChunk_content,
        concatAll_contentFrags_cons, String.append_assoc]
    · rw [List.foldl_cons, (ih (processChunk st c)).2, processChunk_yielded,
        mapFrags_cons, List.append_assoc]

/-- When no chunk carries tool-call fragments on its first choice, the chunk
loop leaves the accumulated tool-call fragments unchanged. -/
theorem foldl_processChunk_toolNone (chunks : List Chunk)
    (h : ∀ c ∈ chunks, ∀ d ∈ c.choices.head?, d.tool_calls = none) :
    ∀ st : StreamLoopState,
    (chunks.foldl processChunk st).stream_data.response_tool_calls =
      st.stream_data.response_tool_calls := by
  induction chunks with
  | nil => intro st; rfl
  | cons c rest ih =>
    intro st
    rw [List.foldl_cons,
      ih (fun x hx => h x (List.mem_cons_of_mem _ hx)) (processChunk st c),
      processChunk_tool_calls st c (h c (List.mem_cons_self _ _))]

/-- With no usage block anywhere in the stream, the chunk loop leaves every
per-call counter untouched except the chunk counter, which advances by the
number of choice-bearing chunks. -/
theorem foldl_processChunk_noUsage (chunks : List Chunk)
    (h : ∀ c ∈ chunks, c.usage = none) :
    ∀ st : StreamLoopState,
    (chunks.foldl processChunk st).metrics.input_tokens = st.metrics.input_tokens ∧
    (chunks.foldl processChunk st).metrics.output_tokens = st.metrics.output_tokens ∧
    (chunks.foldl processChunk st).metrics.prompt_tokens = st.metrics.prompt_tokens ∧
    (chunks.foldl processChunk st).metrics.total_tokens = st.metrics.total_tokens ∧
    (chunks.foldl processChunk st).metrics.completion_time = st.metrics.completion_time ∧
    (chunks.foldl processChunk st).metrics.prompt_time = st.metrics.prompt_time ∧
    (chunks.foldl processChunk st).metrics.queue_time = st.metrics.queue_time ∧
    (chunks.foldl processChunk st).metrics.total_time = st.metrics.total_time ∧
    (chunks.foldl processChunk st).metrics.completion_tokens =
      st.metrics.completion_tokens.map (· + choiceCount chunks) := by
  induction chunks with
  | nil =>
    intro st
    refine ⟨rfl, rfl, rfl, rfl, rfl, rfl, rfl, rfl, ?_⟩
    cases h' : st.metrics.completion_tokens <;> simp [choiceCount, h']
  | cons c rest ih =>
    intro st
    have hstep := processChunk_metrics_noUsage st c (h c (List.mem_cons_self _ _))
    have hrest := ih (fun x hx => h x (List.mem_cons_of_mem _ hx)) (processChunk st c)
    rw [List.foldl_cons]
    obtain ⟨h1, h2, h3, h4, h5, h6, h7, h8, h9⟩ := hrest
    obtain ⟨g1, g2, g3, g4, g5, g6, g7, g8, g9⟩ := hstep
    refine ⟨h1.trans g1, h2.trans g2, h3.trans g3, h4.trans g4, h5.trans g5,
      h6.trans g6, h7.trans g7, h8.trans g8, ?_⟩
    rw [h9, g9]
    by_cases hce : c.choices.isEmpty
    · have : choiceCount (c :: rest) = choiceCount rest := by
        simp [choiceCount, List.filter_cons, hce]
      rw [if_pos hce, this]
    · have : choiceCount (c :: rest) = choiceCount rest + 1 := by
        simp [choiceCount, List.filter_cons, hce]
      rw [if_neg hce, this]
      cases st.metrics.completion_tokens with
      | none => rfl
      | some n => simp [Option.map]; omega

/-- A choice-bearing, usage-free chunk advances the chunk counter and sets
time-to-first-token exactly when the counter was zero. -/
theorem processChunk_ttft_step (st : StreamLoopState) (c : Chunk) (n : Nat)
    (hu : c.usage = none) (hc : c.choices ≠ [])
    (hn : st.metrics.completion_tokens = some n) :
    (processChunk st c).metrics.completion_tokens = some (n + 1) ∧
    (processChunk st c).metrics.time_to_first_token =
      (if n = 0 then some c.elapsed else st.metrics.time_to_first_token) := by
  rcases c with ⟨chs, us, el⟩
  cases hu
  cases chs with
  | nil => exact absurd rfl hc
  | cons d ds =>
    rcases d with ⟨dc, dt⟩
    cases dc <;> cases dt <;>
      simp [processChunk, hn] <;>
      rcases n with _ | n <;> simp

/-- Once the chunk counter is positive, a usage-free remainder of the stream
never rewrites time-to-first-token. -/
theorem foldl_ttft_preserved (chunks : List Chunk)
    (h : ∀ c ∈ chunks, c.usage = none) :
    ∀ (st : StreamLoopState) (n : Nat),
    st.metrics.completion_tokens = some n → 1 ≤ n →
    (chunks.foldl processChunk st).metrics.time_to_first_token =
      st.metrics.time_to_first_token := by
  induction chunks with
  | nil => intro st n _ _; rfl
  | cons c rest ih =>
    intro st n hn h1
    rw [List.foldl_cons]
    by_cases hc : c.choices = []
    · rw [processChunk_skip st c hc (h c (List.mem_cons_self _ _))]
      exact ih (fun x hx => h x (List.mem_cons_of_mem _ hx)) st n hn h1
    · obtain ⟨hcount, httft⟩ :=
        processChunk_ttft_step st c n (h c (List.mem_cons_self _ _)) hc hn
      have := ih (fun x hx => h x (List.mem_cons_of_mem _ hx))
        (processChunk st c) (n + 1) hcount (Nat.le_add_left 1 n)
      rw [this, httft, if_neg (by omega)]

/-- Starting from a zero chunk counter, a usage-free stream ends with
time-to-first-token equal to the elapsed reading of its first choice-bearing
chunk (unchanged if there is none). -/
theorem foldl_ttft_first (chunks : List Chunk)
    (h : ∀ c ∈ chunks, c.usage = none) :
    ∀ st : StreamLoopState,
    st.metrics.completion_tokens = some 0 →
    (chunks.foldl processChunk st).metrics.time_to_first_token =
      (match firstChoiceChunk chunks with
       | some c => some c.elapsed
       | none => st.metrics.time_to_first_token) := by
  induction chunks with
  | nil => intro st _; rfl
  | cons c rest ih =>
    intro st hn
    rw [List.foldl_cons]
    by_cases hc : c.choices = []
    · rw [processChunk_skip st c hc (h c (List.mem_cons_self _ _))]
      have : firstChoiceChunk (c :: rest) = firstChoiceChunk rest := by
        simp [firstChoiceChunk, List.find?_cons, hc]
      rw [this]
      exact ih (fun x hx => h x (List.mem_cons_of_mem _ hx)) st hn
    · obtain ⟨hcount, httft⟩ :=
        processChunk_ttft_step st c 0 (h c (List.mem_cons_self _ _)) hc hn
      have hpres := foldl_ttft_preserved rest
        (fun x hx => h x (List.mem_cons_of_mem _ hx))
        (processChunk st c) 1 hcount (le_refl 1)
      have : firstChoiceChunk (c :: rest) = some c := by
        simp [firstChoiceChunk, List.find?_cons, hc]
      rw [hpres, httft, if_pos rfl, this]

/-- A tail of choice-free chunks (where vendors put the trailing usage block)
never alters time-to-first-token. -/
theorem foldl_ttft_tail (chunks : List Chunk)
    (h : ∀ c ∈ chunks, c.choices = []) :
    ∀ st : StreamLoopState,
    (chunks.foldl processChunk st).metrics.time_to_first_token =
      st.metrics.time_to_first_token := by
  induction chunks with
  | nil => intro st; rfl
  | cons c rest ih =>
    intro st
    rw [List.foldl_cons]
    have hstep : (processChunk st c).metrics.time_to_first_token =
        st.metrics.time_to_first_token := by
      rcases c with ⟨chs, us, el⟩
      have hc : chs = [] := h _ (List.mem_cons_self _ _)
      cases hc
      cases us <;> simp [processChunk, addResponseUsageToMetrics]
    rw [ih (fun x hx => h x (List.mem_cons_of_mem _ hx)) (processChunk st c), hstep]

/-- Key membership distributes over dict concatenation. -/
theorem hasKey_append (d e : List (String × ReqValue)) (k : String) :
    hasKey (d ++ e) k = (hasKey d k || hasKey e k) := by
  simp [hasKey]

/-- Key membership commutes with a conditional dict. -/
theorem hasKey_ite (c : Prop) [Decidable c] (a b : List (String × ReqValue))
    (k : String) :
    hasKey (if c then a else b) k = (if c then hasKey a k else hasKey b k) := by
  split <;> rfl

/-- Key membership in a singleton dict is key equality. -/
theorem hasKey_single (k1 k : String) (v : ReqValue) :
    hasKey [(k1, v)] k = (k1 == k) := by
  simp [hasKey]

/-- The empty dict has no keys. -/
theorem hasKey_nil (k : String) : hasKey [] k = false := rfl

/-- C2: when the vendor call made inside `response` fails, the adapter
propagates the provider error — which carries the vendor name, model id and
status code — as is, and returns the conversation list and the adapter state
unmodified: no partial assistant message is appended before the error
reaches the caller. -/
theorem claim_C2_provider_error_leaves_conversation (g : Groq)
    (runTool : ToolCall → String) (e : ProviderError)
    (rest : List (Except ProviderError ChatCompletion))
    (messages : List Message) :
    response g runTool (Except.error e :: rest) messages =
      some (Except.error e, messages, g) := rfl

/-- C9: a sampling/request parameter enters the vendor request exactly when
its value is Python-truthy — setting `temperature = 0.0`, `seed = 0`,
`frequency_penalty = 0.0`, `presence_penalty = 0.0` or `logprobs = False`
produces the same request kwargs as leaving the parameter unset, and (absent
extra `request_params` entries) the parameter's key is present in the kwargs
iff its value is truthy. -/
theorem claim_C9_request_kwargs_truthiness (g : Groq)
    (h : g.request_params = none) :
    (requestKwargs { g with temperature := some 0 } =
      requestKwargs { g with temperature := none }) ∧
    (requestKwargs { g with seed := some 0 } =
      requestKwargs { g with seed := none }) ∧
    (requestKwargs { g with frequency_penalty := some 0 } =
      requestKwargs { g with frequency_penalty := none }) ∧
    (requestKwargs { g with presence_penalty := some 0 } =
      requestKwargs { g with presence_penalty := none }) ∧
    (requestKwargs { g with logprobs := some false } =
      requestKwargs { g with logprobs := none }) ∧
    (hasKey (requestKwargs g) "temperature" = truthyRat g.temperature) ∧
    (hasKey (requestKwargs g) "seed" = truthyInt g.seed) ∧
    (hasKey (requestKwargs g) "frequency_penalty" =
      truthyRat g.frequency_penalty) ∧
    (hasKey (requestKwargs g) "presence_penalty" =
      truthyRat g.presence_penalty) ∧
    (hasKey (requestKwargs g) "logprobs" = truthyBool g.logprobs) := by
  refine ⟨?_, ?_, ?_, ?_, ?_, ?_, ?_, ?_, ?_, ?_⟩
  · simp [requestKwargs, truthyRat]
  · simp [requestKwargs, truthyInt]
  · simp [requestKwargs, truthyRat]
  · simp [requestKwargs, truthyRat]
  · simp [requestKwargs, truthyBool]
  · cases h' : truthyRat g.temperature <;>
      simp only [requestKwargs, h, h', hasKey_ite, hasKey_append, hasKey_single,
        hasKey_nil, Bool.false_or, Bool.or_false, ite_self, if_true, if_false,
        Bool.false_eq_true] <;>
      simp [ite_self]
  · cases h' : truthyInt g.seed <;>
      simp only [requestKwargs, h, h', hasKey_ite, hasKey_append, hasKey_single,
        hasKey_nil, Bool.false_or, Bool.or_false, ite_self, if_true, if_false,
        Bool.false_eq_true] <;>
      simp [ite_self]
  · cases h' : truthyRat g.frequency_penalty <;>
      simp only [requestKwargs, h, h', hasKey_ite, hasKey_append, hasKey_single,
        hasKey_nil, Bool.false_or, Bool.or_false, ite_self, if_true, if_false,
        Bool.false_eq_true] <;>
      simp [ite_self]
  · cases h' : truthyRat g.presence_penalty <;>
      simp only [requestKwargs, h, h', hasKey_ite, hasKey_append, hasKey_single,
        hasKey_nil, Bool.false_or, Bool.or_false, ite_self, if_true, if_false,
        Bool.false_eq_true] <;>
      simp [ite_self]
  · cases h' : truthyBool g.logprobs <;>
      simp only [requestKwargs, h, h', hasKey_ite, hasKey_append, hasKey_single,
        hasKey_nil, Bool.false_or, Bool.or_false, ite_self, if_true, if_false,
        Bool.false_eq_true] <;>
      simp [ite_self]

/-- Witness for C9 at a concrete adapter: temperature 0 is omitted from the
kwargs, and a nonzero temperature is present. -/
theorem claim_C9_witness :
    (requestKwargs ({ temperature := some 0 } : Groq) =
      requestKwargs ({ temperature := none } : Groq)) ∧
    hasKey (requestKwargs ({ temperature := some 0 } : Groq)) "temperature" =
      truthyRat (some 0) ∧
    hasKey (requestKwargs ({ temperature := some 2 } : Groq)) "temperature" =
      truthyRat (some 2) := by
  refine ⟨?_, ?_, ?_⟩
  · exact (claim_C9_request_kwargs_truthiness { temperature := some 0 } rfl).1
  · exact
      (claim_C9_request_kwargs_truthiness { temperature := some 0 }
        rfl).2.2.2.2.2.1
  · exact
      (claim_C9_request_kwargs_truthiness { temperature := some 2 }
        rfl).2.2.2.2.2.1

/-- C5 counterexample: a vendor usage block reporting prompt 5, completion 2
and total 100 is copied verbatim into the per-call metrics, so the claimed
invariant `total_tokens = input_tokens + output_tokens` fails — the adapter
does not guarantee it. -/
theorem claim_C5_counterexample :
    c5Usage.prompt_tokens.isSome ∧ c5Usage.completion_tokens.isSome ∧
    c5Usage.total_tokens.isSome ∧
    (updateUsageMetrics { role := "assistant" } {} {} 1
        (some c5Usage)).2.1.input_tokens = some 5 ∧
    (updateUsageMetrics { role := "assistant" } {} {} 1
        (some c5Usage)).2.1.output_tokens = some 2 ∧
    (updateUsageMetrics { role := "assistant" } {} {} 1
        (some c5Usage)).2.1.total_tokens = some 100 ∧
    ¬ ((updateUsageMetrics { role := "assistant" } {} {} 1
          (some c5Usage)).2.1.total_tokens =
        some ((updateUsageMetrics { role := "assistant" } {} {} 1
            (some c5Usage)).2.1.input_tokens.getD 0 +
          (updateUsageMetrics { role := "assistant" } {} {} 1
            (some c5Usage)).2.1.output_tokens.getD 0)) := by
  decide

/-- C5 amended: the per-call metrics copy the vendor's three token counters
verbatim (input = prompt, output = completion, total = total), so
`total_tokens = input_tokens + output_tokens` holds exactly when the vendor's
reported total equals its reported prompt + completion. -/
theorem claim_C5_vendor_totals_copied (am : Message) (m : Metrics)
    (life : LifetimeMetrics) (e : Rat) (u : CompletionUsage) (p c t : Nat)
    (hp : u.prompt_tokens = some p) (hc : u.completion_tokens = some c)
    (ht : u.total_tokens = some t) :
    (updateUsageMetrics am m life e (some u)).2.1.input_tokens = some p ∧
    (updateUsageMetrics am m life e (some u)).2.1.output_tokens = some c ∧
    (updateUsageMetrics am m life e (some u)).2.1.total_tokens = some t ∧
    (t = p + c →
      (updateUsageMetrics am m life e (some u)).2.1.total_tokens =
        some ((updateUsageMetrics am m life e (some u)).2.1.input_tokens.getD 0 +
          (updateUsageMetrics am m life e (some u)).2.1.output_tokens.getD 0)) := by
  rw [updateUsageMetrics_eq]
  refine ⟨?_, ?_, ?_, ?_⟩ <;>
    simp [hp, hc, ht, Option.or]

/-- Witness for C5 (amended) at a consistent usage block 5 + 2 = 7. -/
theorem claim_C5_witness :
    (updateUsageMetrics { role := "assistant" } {} {} 1
        (some { prompt_tokens := some 5, completion_tokens := some 2,
                total_tokens := some 7 })).2.1.total_tokens =
      some ((updateUsageMetrics { role := "assistant" } {} {} 1
          (some { prompt_tokens := some 5, completion_tokens := some 2,
                  total_tokens := some 7 })).2.1.input_tokens.getD 0 +
        (updateUsageMetrics { role := "assistant" } {} {} 1
          (some { prompt_tokens := some 5, completion_tokens := some 2,
                  total_tokens := some 7 })).2.1.output_tokens.getD 0) :=
  (claim_C5_vendor_totals_copied { role := "assistant" } {} {} 1 _ 5 2 7
    rfl rfl rfl).2.2.2 rfl

/-- C8: `PDFUrlReader.read` retries a transport failure with 2^attempt-second
exponential backoff across at most 3 attempts. When the first two attempts
fail and the third succeeds, the parsed (optionally chunked) document list is
returned with no error and the two failures cost only the two logged backoff
waits; only when all three attempts fail does the transport error
propagate. -/
theorem claim_C8_retry_backoff (chunkDocF : Document → List Document)
    (url : String) (tries : Nat → Except String HttpResponse)
    (e1 e2 : String) (r : HttpResponse) (hurl : url ≠ "")
    (h0 : tries 0 = Except.error e1) (h1 : tries 1 = Except.error e2)
    (h2 : tries 2 = Except.ok r) (hst : r.status < 400) :
    (pdfUrlRead false chunkDocF url tries =
      (Except.ok ((r.pages.enumFrom 1).map fun p =>
        ({ name := docNameFromUrl url, id := s!"{docNameFromUrl url}_{p.1}",
           page := p.1, content := p.2 } : Document)), [2 ^ 0, 2 ^ 1])) ∧
    (pdfUrlRead true chunkDocF url tries =
      (Except.ok (((r.pages.enumFrom 1).map fun p =>
        ({ name := docNameFromUrl url, id := s!"{docNameFromUrl url}_{p.1}",
           page := p.1, content := p.2 } : Document)).flatMap chunkDocF),
       [2 ^ 0, 2 ^ 1])) ∧
    (∀ (tries2 : Nat → Except String HttpResponse) (f1 f2 f3 : String),
      tries2 0 = Except.error f1 → tries2 1 = Except.error f2 →
      tries2 2 = Except.error f3 →
      pdfUrlRead false chunkDocF url tries2 =
        (Except.error (ReadError.requestError f3), [2 ^ 0, 2 ^ 1])) := by
  have hnot : ¬ r.status ≥ 400 := by omega
  refine ⟨?_, ?_, ?_⟩
  · simp [pdfUrlRead, fetchWithRetry, h0, h1, h2, hurl, hnot]
  · simp [pdfUrlRead, fetchWithRetry, h0, h1, h2, hurl, hnot]
  · intro tries2 f1 f2 f3 g0 g1 g2
    simp [pdfUrlRead, fetchWithRetry, g0, g1, g2, hurl]

/-- Witness for C8: a concrete fetch that fails twice and succeeds on the
third attempt returns the two parsed pages with backoff waits of 1s and 2s. -/
theorem claim_C8_witness :
    pdfUrlRead false (fun d => [d]) "http://x.com/a.pdf" c8Tries =
      (Except.ok [{ name := "a", id := "a_1", page := 1, content := "p1" },
                  { name := "a", id := "a_2", page := 2, content := "p2" }],
       [1, 2]) := by
  rw [(claim_C8_retry_backoff (fun d => [d]) "http://x.com/a.pdf" c8Tries
    "boom1" "boom2" { status := 200, pages := ["p1", "p2"] }
    (by decide) rfl rfl rfl (by decide)).1]
  decide

/-- The version `upsert` stores is a function of the serialized session
alone, whatever the prior state of the collection. -/
theorem upsert_version_eq (store : Store) (sd : SessionDict) (now : Nat) :
    (findOne (upsert store sd now).1 sd.session_id).map (fun d => d.version) =
      some (some (match sd.version with | none => 1 | some v => v + 1)) := by
  rcases hfind : findOne store sd.session_id with _ | d0
  · simp only [upsert, hfind]
    rw [findOne, List.find?_append]
    rw [findOne] at hfind
    rw [hfind]
    simp
  · simp only [upsert, hfind]
    rw [findOne, List.find?_map]
    have hcomp : ((fun d : StoredDoc => d.session_id == sd.session_id) ∘
        (fun d => if d.session_id == sd.session_id then
          { d with
            version := some (match sd.version with
              | none => 1
              | some v => v + 1),
            payload := sd.payload, updated_at := some now }
        else d)) = (fun d : StoredDoc => d.session_id == sd.session_id) := by
      funext d
      by_cases hd : d.session_id == sd.session_id <;>
        simp [Function.comp, hd]
    rw [hcomp]
    rw [findOne] at hfind
    rw [hfind]
    have hd0 := List.find?_some hfind
    have heq : d0.session_id = sd.session_id := by simpa using hd0
    simp [heq]

/-- C10: the `_version` written by `upsert` is computed solely from the
serialized session — 1 when the dict lacks `_version`, that value plus one
otherwise — for every prior state of the collection, so the stored document's
version is never consulted before overwriting; in particular repeated upserts
of a session whose serialization lacks `_version` always leave `_version`
at 1. -/
theorem claim_C10_upsert_version (store : Store) (sd : SessionDict) (now : Nat) :
    ((findOne (upsert store sd now).1 sd.session_id).map (fun d => d.version) =
      some (some (match sd.version with | none => 1 | some v => v + 1))) ∧
    (∀ n, 1 ≤ n → sd.version = none →
      (findOne (upsertIter store sd now n) sd.session_id).map
          (fun d => d.version) =
        some (some 1)) := by
  refine ⟨upsert_version_eq store sd now, ?_⟩
  intro n hn hv
  induction n generalizing store with
  | zero => omega
  | succ k ih =>
    rcases Nat.eq_or_lt_of_le hn with h1 | h1
    · have hk : k = 0 := by omega
      subst hk
      have := upsert_version_eq store sd now
      rw [hv] at this
      simpa [upsertIter] using this
    · have hk : 1 ≤ k := by omega
      simpa [upsertIter] using ih (upsert store sd now).1 hk

/-- Witness for C10: upserting over a stored document at version 99 a session
whose serialization lacks `_version` still writes version 1, three times in a
row. -/
theorem claim_C10_witness :
    ((findOne (upsert [{ session_id := "s", version := some 99 }]
        { session_id := "s" } 10).1 "s").map (fun d => d.version) =
      some (some 1)) ∧
    ((findOne (upsertIter [{ session_id := "s", version := some 99 }]
        { session_id := "s" } 10 3) "s").map (fun d => d.version) =
      some (some 1)) :=
  ⟨(claim_C10_upsert_version [{ session_id := "s", version := some 99 }]
      { session_id := "s" } 10).1,
   (claim_C10_upsert_version [{ session_id := "s", version := some 99 }]
      { session_id := "s" } 10).2 3 (by decide) rfl⟩

/-- The lifetime-mapping component of `update_stream_metrics` does not depend
on the assistant message. -/
theorem updateStreamMetrics_life (am : Message) (m : Metrics)
    (life : LifetimeMetrics) (e : Rat) :
    (updateStreamMetrics am m life e).2 =
    { life with
        response_times := life.response_times ++ [e]
        time_to_first_token := match m.time_to_first_token with
          | some t => life.time_to_first_token ++ [t]
          | none => life.time_to_first_token
        input_tokens := match m.input_tokens with
          | some v => addNat life.input_tokens v
          | none => life.input_tokens
        output_tokens := match m.output_tokens with
          | some v => addNat life.output_tokens v
          | none => life.output_tokens
        prompt_tokens := match m.prompt_tokens with
          | some v => addNat life.prompt_tokens v
          | none => life.prompt_tokens
        completion_tokens := match m.completion_tokens with
          | some v => addNat life.completion_tokens v
          | none => life.completion_tokens
        total_tokens := match m.total_tokens with
          | some v => addNat life.total_tokens v
          | none => life.total_tokens
        completion_time := match m.completion_time with
          | some v => addRat life.completion_time v
          | none => life.completion_time
        prompt_time := match m.prompt_time with
          | some v => addRat life.prompt_time v
          | none => life.prompt_time
        queue_time := match m.queue_time with
          | some v => addRat life.queue_time v
          | none => life.queue_time
        total_time := match m.total_time with
          | some v => addRat life.total_time v
          | none => life.total_time } :=
  congrArg Prod.snd (updateStreamMetrics_eq am m life e)

/-- The four components of a stream segment, written through the named
assembly and metrics-update helpers. -/
theorem streamSegment_parts (g : Groq) (msgs : List Message)
    (call : StreamCall) :
    ((streamSegment g msgs call).1 =
      (call.chunks.foldl processChunk {}).yielded) ∧
    ((streamSegment g msgs call).2.1 =
      (updateStreamMetrics
        (assembleAssistant (call.chunks.foldl processChunk {}).stream_data)
        (call.chunks.foldl processChunk {}).metrics g.metrics
        call.finalElapsed).1) ∧
    ((streamSegment g msgs call).2.2.1 =
      msgs ++ [(streamSegment g msgs call).2.1]) ∧
    ((streamSegment g msgs call).2.2.2.metrics =
      (updateStreamMetrics
        (assembleAssistant (call.chunks.foldl processChunk {}).stream_data)
        (call.chunks.foldl processChunk {}).metrics g.metrics
        call.finalElapsed).2) :=
  ⟨rfl, rfl, rfl, rfl⟩

/-- C3 counterexample: a streaming call whose vendor reports no usage block
at all (so in particular never reports `completion_tokens`) still changes the
adapter's lifetime `completion_tokens` entry — the chunk counter stored in
the per-call `completion_tokens` is summed into the lifetime mapping. -/
theorem claim_C3_counterexample :
    (∀ c ∈ c3Stream.chunks, c.usage = none) ∧
    ({} : Groq).metrics.completion_tokens = none ∧
    (streamSegment {} [] c3Stream).2.2.2.metrics.completion_tokens = some 1 := by
  decide

/-- C3 amended: absent vendor fields leave the lifetime entries unchanged on
the non-streaming path for every counter, and on the streaming path for every
counter except `completion_tokens`; on a streaming call with no vendor usage
block, the lifetime `completion_tokens` entry is nevertheless increased by
the number of choice-bearing chunks (the chunk counter kept in the per-call
`completion_tokens`). -/
theorem claim_C3_absent_fields :
    (∀ (am : Message) (m : Metrics) (life : LifetimeMetrics) (e : Rat)
      (u : CompletionUsage),
      ((updateUsageMetrics am m life e none).2.2 =
        { life with response_times := life.response_times ++ [e] }) ∧
      (u.prompt_tokens = none →
        (updateUsageMetrics am m life e (some u)).2.2.input_tokens =
          life.input_tokens ∧
        (updateUsageMetrics am m life e (some u)).2.2.prompt_tokens =
          life.prompt_tokens) ∧
      (u.completion_tokens = none →
        (updateUsageMetrics am m life e (some u)).2.2.output_tokens =
          life.output_tokens ∧
        (updateUsageMetrics am m life e (some u)).2.2.completion_tokens =
          life.completion_tokens) ∧
      (u.total_tokens = none →
        (updateUsageMetrics am m life e (some u)).2.2.total_tokens =
          life.total_tokens) ∧
      (u.completion_time = none →
        (updateUsageMetrics am m life e (some u)).2.2.completion_time =
          life.completion_time) ∧
      (u.prompt_time = none →
        (updateUsageMetrics am m life e (some u)).2.2.prompt_time =
          life.prompt_time) ∧
      (u.queue_time = none →
        (updateUsageMetrics am m life e (some u)).2.2.queue_time =
          life.queue_time) ∧
      (u.total_time = none →
        (updateUsageMetrics am m life e (some u)).2.2.total_time =
          life.total_time)) ∧
    (∀ (g : Groq) (msgs : List Message) (call : StreamCall),
      (∀ c ∈ call.chunks, c.usage = none) →
      ((streamSegment g msgs call).2.2.2.metrics.input_tokens =
        g.metrics.input_tokens ∧
       (streamSegment g msgs call).2.2.2.metrics.output_tokens =
        g.metrics.output_tokens ∧
       (streamSegment g msgs call).2.2.2.metrics.prompt_tokens =
        g.metrics.prompt_tokens ∧
       (streamSegment g msgs call).2.2.2.metrics.total_tokens =
        g.metrics.total_tokens ∧
       (streamSegment g msgs call).2.2.2.metrics.completion_time =
        g.metrics.completion_time ∧
       (streamSegment g msgs call).2.2.2.metrics.prompt_time =
        g.metrics.prompt_time ∧
       (streamSegment g msgs call).2.2.2.metrics.queue_time =
        g.metrics.queue_time ∧
       (streamSegment g msgs call).2.2.2.metrics.total_time =
        g.metrics.total_time) ∧
      (streamSegment g msgs call).2.2.2.metrics.completion_tokens =
        some (g.metrics.completion_tokens.getD 0 + choiceCount call.chunks)) := by
  constructor
  · intro am m life e u
    refine ⟨rfl, ?_, ?_, ?_, ?_, ?_, ?_, ?_⟩ <;>
      intro hz <;> rw [updateUsageMetrics_eq] <;> simp [hz]
  · intro g msgs call h
    obtain ⟨f1, f2, f3, f4, f5, f6, f7, f8, f9⟩ :=
      foldl_processChunk_noUsage call.chunks h {}
    have hm := (streamSegment_parts g msgs call).2.2.2
    rw [updateStreamMetrics_life] at hm
    have hcomp : (call.chunks.foldl processChunk
        ({} : StreamLoopState)).metrics.completion_tokens =
        some (choiceCount call.chunks) := by
      rw [f9]; simp
    refine ⟨⟨?_, ?_, ?_, ?_, ?_, ?_, ?_, ?_⟩, ?_⟩ <;>
      rw [hm] <;>
      simp only [f1, f2, f3, f4, f5, f6, f7, f8, hcomp] <;>
      rfl

/-- Witness for C3 (amended): a no-usage one-chunk stream leaves every
lifetime counter unchanged except `completion_tokens`, which absorbs the
chunk count. -/
theorem claim_C3_witness :
    ((updateUsageMetrics { role := "assistant" } {} {} 1
        (some { prompt_tokens := some 5 })).2.2.queue_time = none) ∧
    ((streamSegment {} [] c3Stream).2.2.2.metrics.input_tokens = none) ∧
    ((streamSegment {} [] c3Stream).2.2.2.metrics.completion_tokens =
      some (({} : Groq).metrics.completion_tokens.getD 0 +
        choiceCount c3Stream.chunks)) := by
  refine ⟨?_, ?_, ?_⟩
  · exact ((claim_C3_absent_fields.1 { role := "assistant" } {} {} 1
      { prompt_tokens := some 5 }).2.2.2.2.2.2.1 rfl).trans rfl
  · exact ((claim_C3_absent_fields.2 {} [] c3Stream (by decide)).1).1.trans rfl
  · exact (claim_C3_absent_fields.2 {} [] c3Stream (by decide)).2

/-- Generic lifetime-summation lemma: if one completed call folds a reported
value `v` into a lifetime slot as `slot.getD 0 + v`, then a nonempty sequence
of calls that all report the field leaves the slot holding the sum of the
reported values (on top of the starting slot's value). -/
theorem runCalls_field {α : Type} [AddCommMonoid α]
    (sel : Groq → Option α) (usel : CompletionUsage → Option α)
    (hstep : ∀ (g : Groq) (c : ChatCompletion) (u : CompletionUsage) (v : α),
      c.usage = some u → usel u = some v →
      sel { g with metrics :=
        (createAssistantMessage c.message {} g.metrics c.elapsed
          c.usage).2.2 } = some ((sel g).getD 0 + v)) :
    ∀ (calls : List ChatCompletion) (g : Groq), calls ≠ [] →
    (∀ c ∈ calls, (c.usage.bind usel).isSome) →
    sel (runCalls g calls) =
      some ((sel g).getD 0 +
        (calls.filterMap (fun c => c.usage.bind usel)).sum) := by
  intro calls
  induction calls with
  | nil => intro g hne _; exact absurd rfl hne
  | cons c rest ih =>
    intro g _ h
    have hc := h c (List.mem_cons_self _ _)
    rcases hu : c.usage with _ | u
    · rw [hu] at hc; simp at hc
    · rcases hv : usel u with _ | v
      · rw [hu] at hc; simp [hv] at hc
      · have hstep1 := hstep g c u v hu hv
        cases rest with
        | nil =>
          show sel { g with metrics :=
              (createAssistantMessage c.message {} g.metrics c.elapsed
                c.usage).2.2 } =
            some ((sel g).getD 0 +
              (List.filterMap (fun x => x.usage.bind usel) [c]).sum)
          rw [hstep1]
          simp [hu, hv]
        | cons r rs =>
          have hrest := ih { g with metrics :=
              (createAssistantMessage c.message {} g.metrics c.elapsed
                c.usage).2.2 }
            (List.cons_ne_nil r rs)
            (fun x hx => h x (List.mem_cons_of_mem _ hx))
          show sel (runCalls { g with metrics :=
              (createAssistantMessage c.message {} g.metrics c.elapsed
                c.usage).2.2 } (r :: rs)) =
            some ((sel g).getD 0 +
              (List.filterMap (fun x => x.usage.bind usel) (c :: r :: rs)).sum)
          rw [hrest, hstep1]
          simp only [List.filterMap_cons, hu, Option.bind_some, hv,
            Option.getD_some, List.sum_cons]
          rw [add_assoc]
          simp [hv]

/-- C6: after a nonempty sequence of completed non-streaming calls on one
fresh adapter instance, every lifetime counter whose vendor field was
reported in all calls equals the field-wise sum of the vendor-reported
values — which are exactly the per-call Metrics values, since each call's
Metrics copies the reported fields verbatim (final conjunct). -/
theorem claim_C6_lifetime_sums (calls : List ChatCompletion) (hne : calls ≠ []) :
    ((∀ c ∈ calls, (c.usage.bind (fun u => u.prompt_tokens)).isSome) →
      (runCalls {} calls).metrics.input_tokens =
        some (sumUsageNat calls (fun u => u.prompt_tokens)) ∧
      (runCalls {} calls).metrics.prompt_tokens =
        some (sumUsageNat calls (fun u => u.prompt_tokens))) ∧
    ((∀ c ∈ calls, (c.usage.bind (fun u => u.completion_tokens)).isSome) →
      (runCalls {} calls).metrics.output_tokens =
        some (sumUsageNat calls (fun u => u.completion_tokens)) ∧
      (runCalls {} calls).metrics.completion_tokens =
        some (sumUsageNat calls (fun u => u.completion_tokens))) ∧
    ((∀ c ∈ calls, (c.usage.bind (fun u => u.total_tokens)).isSome) →
      (runCalls {} calls).metrics.total_tokens =
        some (sumUsageNat calls (fun u => u.total_tokens))) ∧
    ((∀ c ∈ calls, (c.usage.bind (fun u => u.completion_time)).isSome) →
      (runCalls {} calls).metrics.completion_time =
        some (sumUsageRat calls (fun u => u.completion_time))) ∧
    ((∀ c ∈ calls, (c.usage.bind (fun u => u.prompt_time)).isSome) →
      (runCalls {} calls).metrics.prompt_time =
        some (sumUsageRat calls (fun u => u.prompt_time))) ∧
    ((∀ c ∈ calls, (c.usage.bind (fun u => u.queue_time)).isSome) →
      (runCalls {} calls).metrics.queue_time =
        some (sumUsageRat calls (fun u => u.queue_time))) ∧
    ((∀ c ∈ calls, (c.usage.bind (fun u => u.total_time)).isSome) →
      (runCalls {} calls).metrics.total_time =
        some (sumUsageRat calls (fun u => u.total_time))) ∧
    (∀ (am : Message) (m : Metrics) (life : LifetimeMetrics) (e : Rat)
      (u : CompletionUsage),
      (updateUsageMetrics am m life e (some u)).2.1.input_tokens =
        u.prompt_tokens.or m.input_tokens ∧
      (updateUsageMetrics am m life e (some u)).2.1.output_tokens =
        u.completion_tokens.or m.output_tokens ∧
      (updateUsageMetrics am m life e (some u)).2.1.total_tokens =
        u.total_tokens.or m.total_tokens ∧
      (updateUsageMetrics am m life e (some u)).2.1.completion_time =
        u.completion_time.or m.completion_time ∧
      (updateUsageMetrics am m life e (some u)).2.1.prompt_time =
        u.prompt_time.or m.prompt_time ∧
      (updateUsageMetrics am m life e (some u)).2.1.queue_time =
        u.queue_time.or m.queue_time ∧
      (updateUsageMetrics am m life e (some u)).2.1.total_time =
        u.total_time.or m.total_time) := by
  refine ⟨?_, ?_, ?_, ?_, ?_, ?_, ?_, ?_⟩
  · intro h
    constructor
    · have hs : ∀ (g : Groq) (c : ChatCompletion) (u : CompletionUsage)
          (v : Nat), c.usage = some u → u.prompt_tokens = some v →
          ({ g with metrics := (createAssistantMessage c.message {} g.metrics
            c.elapsed c.usage).2.2 } : Groq).metrics.input_tokens =
            some (g.metrics.input_tokens.getD 0 + v) := by
        intro g c u v hu hv
        rw [hu]
        simp only [createAssistantMessage]
        rw [updateUsageMetrics_eq]
        simp [hv, addNat]
      simpa [sumUsageNat] using
        runCalls_field (fun gg : Groq => gg.metrics.input_tokens)
          (fun u => u.prompt_tokens) hs calls {} hne h
    · have hs : ∀ (g : Groq) (c : ChatCompletion) (u : CompletionUsage)
          (v : Nat), c.usage = some u → u.prompt_tokens = some v →
          ({ g with metrics := (createAssistantMessage c.message {} g.metrics
            c.elapsed c.usage).2.2 } : Groq).metrics.prompt_tokens =
            some (g.metrics.prompt_tokens.getD 0 + v) := by
        intro g c u v hu hv
        rw [hu]
        simp only [createAssistantMessage]
        rw [updateUsageMetrics_eq]
        simp [hv, addNat]
      simpa [sumUsageNat] using
        runCalls_field (fun gg : Groq => gg.metrics.prompt_tokens)
          (fun u => u.prompt_tokens) hs calls {} hne h
  · intro h
    constructor
    · have hs : ∀ (g : Groq) (c : ChatCompletion) (u : CompletionUsage)
          (v : Nat), c.usage = some u → u.completion_tokens = some v →
          ({ g with metrics := (createAssistantMessage c.message {} g.metrics
            c.elapsed c.usage).2.2 } : Groq).metrics.output_tokens =
            some (g.metrics.output_tokens.getD 0 + v) := by
        intro g c u v hu hv
        rw [hu]
        simp only [createAssistantMessage]
        rw [updateUsageMetrics_eq]
        simp [hv, addNat]
      simpa [sumUsageNat] using
        runCalls_field (fun gg : Groq => gg.metrics.output_tokens)
          (fun u => u.completion_tokens) hs calls {} hne h
    · have hs : ∀ (g : Groq) (c : ChatCompletion) (u : CompletionUsage)
          (v : Nat), c.usage = some u → u.completion_tokens = some v →
          ({ g with metrics := (createAssistantMessage c.message {} g.metrics
            c.elapsed c.usage).2.2 } : Groq).metrics.completion_tokens =
            some (g.metrics.completion_tokens.getD 0 + v) := by
        intro g c u v hu hv
        rw [hu]
        simp only [createAssistantMessage]
        rw [updateUsageMetrics_eq]
        simp [hv, addNat]
      simpa [sumUsageNat] using
        runCalls_field (fun gg : Groq => gg.metrics.completion_tokens)
          (fun u => u.completion_tokens) hs calls {} hne h
  · intro h
    have hs : ∀ (g : Groq) (c : ChatCompletion) (u : CompletionUsage)
        (v : Nat), c.usage = some u → u.total_tokens = some v →
        ({ g with metrics := (createAssistantMessage c.message {} g.metrics
          c.elapsed c.usage).2.2 } : Groq).metrics.total_tokens =
          some (g.metrics.total_tokens.getD 0 + v) := by
      intro g c u v hu hv
      rw [hu]
      simp only [createAssistantMessage]
      rw [updateUsageMetrics_eq]
      simp [hv, addNat]
    simpa [sumUsageNat] using
      runCalls_field (fun gg : Groq => gg.metrics.total_tokens)
        (fun u => u.total_tokens) hs calls {} hne h
  · intro h
    have hs : ∀ (g : Groq) (c : ChatCompletion) (u : CompletionUsage)
        (v : Rat), c.usage = some u → u.completion_time = some v →
        ({ g with metrics := (createAssistantMessage c.message {} g.metrics
          c.elapsed c.usage).2.2 } : Groq).metrics.completion_time =
          some (g.metrics.completion_time.getD 0 + v) := by
      intro g c u v hu hv
      rw [hu]
      simp only [createAssistantMessage]
      rw [updateUsageMetrics_eq]
      simp [hv, addRat]
    simpa [sumUsageRat] using
      runCalls_field (fun gg : Groq => gg.metrics.completion_time)
        (fun u => u.completion_time) hs calls {} hne h
  · intro h
    have hs : ∀ (g : Groq) (c : ChatCompletion) (u : CompletionUsage)
        (v : Rat), c.usage = some u → u.prompt_time = some v →
        ({ g with metrics := (createAssistantMessage c.message {} g.metrics
          c.elapsed c.usage).2.2 } : Groq).metrics.prompt_time =
          some (g.metrics.prompt_time.getD 0 + v) := by
      intro g c u v hu hv
      rw [hu]
      simp only [createAssistantMessage]
      rw [updateUsageMetrics_eq]
      simp [hv, addRat]
    simpa [sumUsageRat] using
      runCalls_field (fun gg : Groq => gg.metrics.prompt_time)
        (fun u => u.prompt_time) hs calls {} hne h
  · intro h
    have hs : ∀ (g : Groq) (c : ChatCompletion) (u : CompletionUsage)
        (v : Rat), c.usage = some u → u.queue_time = some v →
        ({ g with metrics := (createAssistantMessage c.message {} g.metrics
          c.elapsed c.usage).2.2 } : Groq).metrics.queue_time =
          some (g.metrics.queue_time.getD 0 + v) := by
      intro g c u v hu hv
      rw [hu]
      simp only [createAssistantMessage]
      rw [updateUsageMetrics_eq]
      simp [hv, addRat]
    simpa [sumUsageRat] using
      runCalls_field (fun gg : Groq => gg.metrics.queue_time)
        (fun u => u.queue_time) hs calls {} hne h
  · intro h
    have hs : ∀ (g : Groq) (c : ChatCompletion) (u : CompletionUsage)
        (v : Rat), c.usage = some u → u.total_time = some v →
        ({ g with metrics := (createAssistantMessage c.message {} g.metrics
          c.elapsed c.usage).2.2 } : Groq).metrics.total_time =
          some (g.metrics.total_time.getD 0 + v) := by
      intro g c u v hu hv
      rw [hu]
      simp only [createAssistantMessage]
      rw [updateUsageMetrics_eq]
      simp [hv, addRat]
    simpa [sumUsageRat] using
      runCalls_field (fun gg : Groq => gg.metrics.total_time)
        (fun u => u.total_time) hs calls {} hne h
  · intro am m life e u
    rw [updateUsageMetrics_eq]
    exact ⟨rfl, rfl, rfl, rfl, rfl, rfl, rfl⟩

/-- Witness for C6 at a concrete two-call sequence: lifetime counters equal
the sums of the vendor-reported values. -/
theorem claim_C6_witness :
    ((runCalls {} c6Calls).metrics.input_tokens =
      some (sumUsageNat c6Calls (fun u => u.prompt_tokens))) ∧
    ((runCalls {} c6Calls).metrics.total_tokens =
      some (sumUsageNat c6Calls (fun u => u.total_tokens))) ∧
    ((runCalls {} c6Calls).metrics.total_time =
      some (sumUsageRat c6Calls (fun u => u.total_time))) :=
  ⟨((claim_C6_lifetime_sums c6Calls (by decide)).1 (by decide)).1,
   (claim_C6_lifetime_sums c6Calls (by decide)).2.2.1 (by decide),
   (claim_C6_lifetime_sums c6Calls (by decide)).2.2.2.2.2.2.1 (by decide)⟩

/-- The assembled assistant message has default metrics, role "assistant",
the accumulated content when nonempty, and the merged tool calls when
nonempty. -/
theorem assembleAssistant_fields (sd : StreamData) :
    (assembleAssistant sd).metrics = ({} : MsgMetrics) ∧
    (assembleAssistant sd).role = "assistant" ∧
    ((assembleAssistant sd).content =
      if sd.response_content != "" then some sd.response_content else none) ∧
    ((assembleAssistant sd).tool_calls =
      match sd.response_tool_calls with
      | some ts =>
        if (buildToolCalls ts).length > 0 then some (buildToolCalls ts)
        else none
      | none => none) := by
  rcases sd with ⟨rc, rtc⟩
  rcases rtc with _ | ts <;>
    simp only [assembleAssistant] <;>
    refine ⟨?_, ?_, ?_, ?_⟩ <;>
    split <;>
    (try split) <;>
    simp_all

/-- C7 counterexample: in a stream whose first chunk carries a choice with no
content (a role-only delta) and whose second chunk carries the first content,
time-to-first-token is the first chunk's elapsed reading, not the elapsed
reading of the first chunk that has content. -/
theorem claim_C7_counterexample :
    (streamSegment {} [] c7Stream).2.1.metrics.time_to_first_token = some 1 ∧
    (firstContentChunk c7Stream.chunks).map (fun c => c.elapsed) = some 2 ∧
    (streamSegment {} [] c7Stream).2.1.metrics.time_to_first_token ≠
      (firstContentChunk c7Stream.chunks).map (fun c => c.elapsed) := by
  decide

/-- C7 amended: in a streaming call whose usage block (if any) arrives in a
trailing run of choice-free chunks, time-to-first-token is set exactly once,
to the elapsed response-timer reading at the first chunk with a nonempty
choice list (whether or not that chunk's delta carries content); chunks with
zero choices are skipped outright; and a chunk carrying a usage block has
that usage folded into the per-call metrics. -/
theorem claim_C7_ttft_first_choice_chunk (g : Groq) (msgs : List Message)
    (body tail : List Chunk) (fe : Rat)
    (hbody : ∀ c ∈ body, c.usage = none)
    (htail : ∀ c ∈ tail, c.choices = [])
    (hsome : ∃ c ∈ body, c.choices ≠ []) :
    ((streamSegment g msgs
        { chunks := body ++ tail, finalElapsed := fe }).2.1.metrics.time_to_first_token =
      (firstChoiceChunk body).map (fun c => c.elapsed)) ∧
    (∀ (st : StreamLoopState) (c : Chunk), c.choices = [] → c.usage = none →
      processChunk st c = st) ∧
    (∀ (st : StreamLoopState) (c : Chunk) (u : CompletionUsage),
      c.usage = some u →
      (processChunk st c).metrics.input_tokens = u.prompt_tokens ∧
      (processChunk st c).metrics.output_tokens = u.completion_tokens ∧
      (processChunk st c).metrics.total_tokens = u.total_tokens) := by
  refine ⟨?_, processChunk_skip, ?_⟩
  · obtain ⟨c1, hc1, hne1⟩ := hsome
    have hfind : (firstChoiceChunk body).isSome := by
      rw [firstChoiceChunk]
      rw [List.find?_isSome]
      exact ⟨c1, hc1, by simp [hne1]⟩
    obtain ⟨c0, hc0⟩ := Option.isSome_iff_exists.mp hfind
    have h1 : ((body.foldl processChunk
        ({} : StreamLoopState))).metrics.time_to_first_token =
        some c0.elapsed := by
      have := foldl_ttft_first body hbody {} rfl
      rw [hc0] at this
      exact this
    have h2 : (((body ++ tail).foldl processChunk
        ({} : StreamLoopState))).metrics.time_to_first_token =
        some c0.elapsed := by
      rw [List.foldl_append, foldl_ttft_tail tail htail, h1]
    have h3 := (streamSegment_parts g msgs
      { chunks := body ++ tail, finalElapsed := fe }).2.1
    rw [h3, updateStreamMetrics_eq]
    have h4 := (assembleAssistant_fields ((body ++ tail).foldl processChunk
      ({} : StreamLoopState)).stream_data).1
    simp only [h4]
    rw [hc0]
    simp [h2]
    rw [foldl_ttft_tail tail htail, h1]
  · intro st c u h
    obtain ⟨p1, p2, _, _, p5, _⟩ := processChunk_usage_fold st c u h
    exact ⟨p1, p2, p5⟩

/-- Witness for C7 (amended): a concrete stream of one content chunk followed
by a choice-free usage chunk has time-to-first-token equal to the first
chunk's elapsed reading. -/
theorem claim_C7_witness :
    (streamSegment {} []
        { chunks := [{ choices := [{ content := some "hi" }], elapsed := 5 }] ++
            [{ choices := [], usage := some { total_tokens := some 7 },
               elapsed := 9 }],
          finalElapsed := 9 }).2.1.metrics.time_to_first_token =
      (firstChoiceChunk
        [{ choices := [{ content := some "hi" }], elapsed := 5 }]).map
        (fun c => c.elapsed) :=
  (claim_C7_ttft_first_choice_chunk {} []
    [{ choices := [{ content := some "hi" }], elapsed := 5 }]
    [{ choices := [], usage := some { total_tokens := some 7 }, elapsed := 9 }]
    9 (by decide) (by decide) (by decide)).1

/-- `update_stream_metrics` back-fills only the metrics of the assistant
message: role, content and tool calls are untouched. -/
theorem updateStreamMetrics_msg (am : Message) (m : Metrics)
    (life : LifetimeMetrics) (e : Rat) :
    (updateStreamMetrics am m life e).1.content = am.content ∧
    (updateStreamMetrics am m life e).1.role = am.role ∧
    (updateStreamMetrics am m life e).1.tool_calls = am.tool_calls := by
  rw [updateStreamMetrics_eq]
  exact ⟨rfl, rfl, rfl⟩

/-- C1: a streaming call yields exactly the stream's content fragments, one
incremental `ModelResponse` per fragment in vendor emission order, and the
assistant message appended to the conversation carries their full
concatenation (stored as `none` when the concatenation is empty); for a
stream with no tool-call fragments the call returns exactly these yields and
appends exactly this one message. -/
theorem claim_C1_stream_concatenation (g : Groq) (runTool : ToolCall → String)
    (msgs : List Message) (call : StreamCall)
    (hnt : ∀ c ∈ call.chunks, ∀ d ∈ c.choices.head?, d.tool_calls = none) :
    ((streamSegment g msgs call).1 =
      (contentFrags call.chunks).map
        (fun s => ({ content := some s } : ModelResponse))) ∧
    ((streamSegment g msgs call).2.2.1 =
      msgs ++ [(streamSegment g msgs call).2.1]) ∧
    ((streamSegment g msgs call).2.1.content.getD "" =
      concatAll (contentFrags call.chunks)) ∧
    (concatAll (contentFrags call.chunks) ≠ "" →
      (streamSegment g msgs call).2.1.content =
        some (concatAll (contentFrags call.chunks))) ∧
    ((streamSegment g msgs call).2.1.role = "assistant") ∧
    (responseStream g runTool [call] msgs =
      some ((streamSegment g msgs call).1,
        msgs ++ [(streamSegment g msgs call).2.1],
        (streamSegment g msgs call).2.2.2)) := by
  have hp := streamSegment_parts g msgs call
  have hF := foldl_processChunk_content call.chunks {}
  have hcon : (call.chunks.foldl processChunk
      ({} : StreamLoopState)).stream_data.response_content =
      concatAll (contentFrags call.chunks) := by
    have := hF.1
    simpa using this
  have hyield : (call.chunks.foldl processChunk
      ({} : StreamLoopState)).yielded =
      (contentFrags call.chunks).map
        (fun s => ({ content := some s } : ModelResponse)) := by
    have := hF.2
    simpa using this
  have hsd := foldl_processChunk_toolNone call.chunks hnt {}
  have hasm := assembleAssistant_fields
    (call.chunks.foldl processChunk ({} : StreamLoopState)).stream_data
  have hmsg := updateStreamMetrics_msg
    (assembleAssistant
      (call.chunks.foldl processChunk ({} : StreamLoopState)).stream_data)
    (call.chunks.foldl processChunk ({} : StreamLoopState)).metrics
    g.metrics call.finalElapsed
  have hcontent : (streamSegment g msgs call).2.1.content =
      (if concatAll (contentFrags call.chunks) != "" then
        some (concatAll (contentFrags call.chunks)) else none) := by
    rw [hp.2.1, hmsg.1, hasm.2.2.1, hcon]
  have htc : (streamSegment g msgs call).2.1.tool_calls = none := by
    rw [hp.2.1, hmsg.2.2, hasm.2.2.2]
    rw [hsd]
  refine ⟨?_, hp.2.2.1, ?_, ?_, ?_, ?_⟩
  · rw [hp.1, hyield]
  · rw [hcontent]
    by_cases hc : concatAll (contentFrags call.chunks) = "" <;>
      simp [hc]
  · intro hne
    rw [hcontent]
    simp [hne]
  · rw [hp.2.1, hmsg.2.1, hasm.2.1]
  · rw [responseStream]
    show (match (streamSegment g msgs call).2.1.tool_calls with
      | some tcs =>
        if tcs.length > 0 then
          match responseStream g runTool []
              ((streamSegment g msgs call).2.2.1 ++
                tcs.map (toolResultMessage runTool)) with
          | some (ys, m, gg) =>
            some ((streamSegment g msgs call).1 ++ ys, m, gg)
          | none => none
        else some ((streamSegment g msgs call).1,
          (streamSegment g msgs call).2.2.1,
          (streamSegment g msgs call).2.2.2)
      | none => some ((streamSegment g msgs call).1,
          (streamSegment g msgs call).2.2.1,
          (streamSegment g msgs call).2.2.2)) =
      some ((streamSegment g msgs call).1,
        msgs ++ [(streamSegment g msgs call).2.1],
        (streamSegment g msgs call).2.2.2)
    rw [htc, hp.2.2.1]

/-- Witness for C1 at the spec's three-chunk scenario: the two fragments are
yielded in order and the appended assistant message carries
"Hello world". -/
theorem claim_C1_witness :
    ((streamSegment {} [] helloStream).1 =
      (contentFrags helloStream.chunks).map
        (fun s => ({ content := some s } : ModelResponse))) ∧
    ((streamSegment {} [] helloStream).2.1.content =
      some (concatAll (contentFrags helloStream.chunks))) ∧
    (responseStream {} (fun _ => "") [helloStream] [] =
      some ((streamSegment {} [] helloStream).1,
        [] ++ [(streamSegment {} [] helloStream).2.1],
        (streamSegment {} [] helloStream).2.2.2)) :=
  ⟨(claim_C1_stream_concatenation {} (fun _ => "") [] helloStream
      (by decide)).1,
   (claim_C1_stream_concatenation {} (fun _ => "") [] helloStream
      (by decide)).2.2.2.1 (by decide),
   (claim_C1_stream_concatenation {} (fun _ => "") [] helloStream
      (by decide)).2.2.2.2.2⟩

/-- `update_usage_metrics` back-fills only the metrics of the assistant
message: its tool calls and content are untouched. -/
theorem updateUsageMetrics_msg_fields (am : Message) (m : Metrics)
    (life : LifetimeMetrics) (e : Rat) (u : Option CompletionUsage) :
    (updateUsageMetrics am m life e u).1.tool_calls = am.tool_calls ∧
    (updateUsageMetrics am m life e u).1.content = am.content := by
  cases u with
  | none => exact ⟨rfl, rfl⟩
  | some u =>
    rw [updateUsageMetrics_eq]
    exact ⟨rfl, rfl⟩

/-- The assistant message built from a completion never carries an empty
tool-call list: either the field is absent or the list is nonempty. -/
theorem createAssistantMessage_tool_calls_ne (rm : CompletionMessage)
    (m : Metrics) (life : LifetimeMetrics) (e : Rat)
    (usage : Option CompletionUsage) (ts : List ToolCall) :
    (createAssistantMessage rm m life e usage).1.tool_calls = some ts →
    ts ≠ [] := by
  simp only [createAssistantMessage]
  rw [(updateUsageMetrics_msg_fields _ m life e usage).1]
  rcases rm.tool_calls with _ | l
  · intro h
    simp at h
  · by_cases hl : l.length > 0
    · intro h
      have hle : l = ts := by simpa [hl] using h
      rw [← hle]
      exact List.length_pos.mp hl
    · intro h
      simp [hl] at h

/-- The assistant message assembled from a stream never carries an empty
tool-call list: either the field is absent or the list is nonempty. -/
theorem streamSegment_tool_calls_ne (g : Groq) (msgs : List Message)
    (call : StreamCall) (ts : List ToolCall) :
    (streamSegment g msgs call).2.1.tool_calls = some ts → ts ≠ [] := by
  rw [(streamSegment_parts g msgs call).2.1]
  rw [(updateStreamMetrics_msg _ _ _ _).2.2]
  rw [(assembleAssistant_fields _).2.2.2]
  rcases (call.chunks.foldl processChunk
      ({} : StreamLoopState)).stream_data.response_tool_calls with _ | fr
  · intro h
    simp at h
  · by_cases hl : (buildToolCalls fr).length > 0
    · intro h
      have hle : buildToolCalls fr = ts := by simpa [hl] using h
      rw [← hle]
      exact List.length_pos.mp hl
    · intro h
      simp [hl] at h

/-- The terminal result of the non-streaming call loop carries no tool
calls. -/
theorem response_terminal_no_tool_calls
    (script : List (Except ProviderError ChatCompletion)) :
    ∀ (g : Groq) (rt : ToolCall → String) (msgs : List Message)
      (mr : ModelResponse) (msgs2 : List Message) (g2 : Groq),
    response g rt script msgs = some (Except.ok mr, msgs2, g2) →
    mr.tool_calls = none := by
  induction script with
  | nil => intro g rt msgs mr msgs2 g2 h; simp [response] at h
  | cons s rest ih =>
    intro g rt msgs mr msgs2 g2 h
    cases s with
    | error e => simp [response] at h
    | ok comp =>
      simp only [response] at h
      rcases heq : (createAssistantMessage comp.message {} g.metrics
          comp.elapsed comp.usage).1.tool_calls with _ | ts
      · rw [heq] at h
        simp only [Option.some.injEq, Prod.mk.injEq, Except.ok.injEq] at h
        rw [← h.1]
      · rw [heq] at h
        have hne := createAssistantMessage_tool_calls_ne comp.message {}
          g.metrics comp.elapsed comp.usage ts heq
        have hpos := List.length_pos.mpr hne
        simp only [hpos, if_true] at h
        exact ih _ _ _ _ _ _ h

/-- When the streaming call loop terminates, the last message appended to the
conversation is an assistant message with no tool calls. -/
theorem responseStream_terminal_no_tool_calls (script : List StreamCall) :
    ∀ (g : Groq) (rt : ToolCall → String) (msgs : List Message)
      (ys : List ModelResponse) (msgs2 : List Message) (g2 : Groq),
    responseStream g rt script msgs = some (ys, msgs2, g2) →
    ∃ m, msgs2.getLast? = some m ∧ m.tool_calls = none ∧
      m.role = "assistant" := by
  induction script with
  | nil => intro g rt msgs ys msgs2 g2 h; simp [responseStream] at h
  | cons call rest ih =>
    intro g rt msgs ys msgs2 g2 h
    simp only [responseStream] at h
    rcases heq : (streamSegment g msgs call).2.1.tool_calls with _ | ts
    · rw [heq] at h
      simp only [Option.some.injEq, Prod.mk.injEq] at h
      refine ⟨(streamSegment g msgs call).2.1, ?_, heq, ?_⟩
      · rw [← h.2.1, (streamSegment_parts g msgs call).2.2.1]
        exact List.getLast?_concat _
      · rw [(streamSegment_parts g msgs call).2.1,
          (updateStreamMetrics_msg _ _ _ _).2.1,
          (assembleAssistant_fields _).2.1]
    · rw [heq] at h
      have hne := streamSegment_tool_calls_ne g msgs call ts heq
      have hpos := List.length_pos.mpr hne
      simp only [hpos, if_true] at h
      rcases hrec : responseStream (streamSegment g msgs call).2.2.2 rt rest
          ((streamSegment g msgs call).2.2.1 ++
            ts.map (toolResultMessage rt)) with _ | tr
      · rw [hrec] at h; simp at h
      · rw [hrec] at h
        rcases tr with ⟨ys1, msgs1, g1⟩
        simp only [Option.some.injEq, Prod.mk.injEq] at h
        obtain ⟨m, hm1, hm2, hm3⟩ := ih _ _ _ _ _ _ hrec
        exact ⟨m, by rw [← h.2.1]; exact hm1, hm2, hm3⟩

/-- C4: a model response carrying tool calls is never returned to the caller
as the terminal result. On both call paths, when the assistant message built
from a vendor response carries tool calls, the adapter appends the assistant
message and the dispatched tool-result messages and recurses on the enlarged
conversation (third and fourth conjuncts); a terminal result exists only once
a response carries zero tool calls — the returned ModelResponse of the
non-streaming loop has no tool calls, and the streaming loop ends with a
tool-call-free assistant message appended last. -/
theorem claim_C4_tool_calls_never_terminal :
    (∀ (g : Groq) (rt : ToolCall → String)
      (script : List (Except ProviderError ChatCompletion))
      (msgs : List Message) (mr : ModelResponse) (msgs2 : List Message)
      (g2 : Groq),
      response g rt script msgs = some (Except.ok mr, msgs2, g2) →
      mr.tool_calls = none) ∧
    (∀ (g : Groq) (rt : ToolCall → String) (script : List StreamCall)
      (msgs : List Message) (ys : List ModelResponse) (msgs2 : List Message)
      (g2 : Groq),
      responseStream g rt script msgs = some (ys, msgs2, g2) →
      ∃ m, msgs2.getLast? = some m ∧ m.tool_calls = none ∧
        m.role = "assistant") ∧
    (∀ (g : Groq) (rt : ToolCall → String) (comp : ChatCompletion)
      (rest : List (Except ProviderError ChatCompletion))
      (msgs : List Message) (ts : List ToolCall),
      (createAssistantMessage comp.message {} g.metrics comp.elapsed
        comp.usage).1.tool_calls = some ts →
      response g rt (Except.ok comp :: rest) msgs =
        response { g with metrics := (createAssistantMessage comp.message {}
            g.metrics comp.elapsed comp.usage).2.2 } rt rest
          ((msgs ++ [(createAssistantMessage comp.message {} g.metrics
              comp.elapsed comp.usage).1]) ++
            ts.map (toolResultMessage rt))) ∧
    (∀ (g : Groq) (rt : ToolCall → String) (call : StreamCall)
      (rest : List StreamCall) (msgs : List Message) (ts : List ToolCall),
      (streamSegment g msgs call).2.1.tool_calls = some ts →
      responseStream g rt (call :: rest) msgs =
        match responseStream (streamSegment g msgs call).2.2.2 rt rest
            ((streamSegment g msgs call).2.2.1 ++
              ts.map (toolResultMessage rt)) with
        | some (ys2, m2, gg2) =>
          some ((streamSegment g msgs call).1 ++ ys2, m2, gg2)
        | none => none) := by
  refine ⟨?_, ?_, ?_, ?_⟩
  · intro g rt script msgs mr msgs2 g2 h
    exact response_terminal_no_tool_calls script g rt msgs mr msgs2 g2 h
  · intro g rt script msgs ys msgs2 g2 h
    exact responseStream_terminal_no_tool_calls script g rt msgs ys msgs2 g2 h
  · intro g rt comp rest msgs ts heq
    have hne := createAssistantMessage_tool_calls_ne comp.message {}
      g.metrics comp.elapsed comp.usage ts heq
    have hpos := List.length_pos.mpr hne
    simp only [response, heq, hpos, if_true]
  · intro g rt call rest msgs ts heq
    have hne := streamSegment_tool_calls_ne g msgs call ts heq
    have hpos := List.length_pos.mpr hne
    simp only [responseStream, heq, hpos, if_true]

/-- Witness for C4: a concrete two-completion script (the first requesting a
tool call, the second clean) terminates with a response carrying no tool
calls. -/
theorem claim_C4_witness :
    ∃ mr msgs2 g2,
      response {} (fun _ => "r") [Except.ok c4CompTool, Except.ok c4CompPlain]
          [] = some (Except.ok mr, msgs2, g2) ∧ mr.tool_calls = none :=
  ⟨_, _, _, rfl,
   claim_C4_tool_calls_never_terminal.1 {} (fun _ => "r")
     [Except.ok c4CompTool, Except.ok c4CompPlain] [] _ _ _ rfl⟩

end Agno
